import Mathlib

/-!
Marco Zero: progression engine and sync layer of `src/App.js`.

A shallow embedding of the leveling arithmetic (`calculatePointsToNextLevel`,
the `while` loop of `addPoints`), of the notification slot (`showMessage`), of
the award-and-persist flow (`addPoints`) and of the `onSnapshot` callback over
explicit application state, and of the title shown on a skill card.

Numbers are the integer-valued numbers of JavaScript: an `Int` stands for the
binary64 value it denotes and every arithmetic result is rounded to binary64
(`roundToDouble`). The `while` loop is modelled with fuel: `none` means the
fuel ran out before the loop guard became false, never a result of the
program.
-/

namespace MarcoZero

/-! ## JavaScript numbers

A binary64 value has a significand of 53 bits, so the integers up to `2 ^ 53`
in magnitude are exact and a larger integer is rounded to the nearest multiple
of a power of two, ties going to the even significand. The exponent range is
not bounded here: a result of magnitude `2 ^ 1024 - 2 ^ 970` or more, which the
program turns into `Infinity`, stays a finite integer. -/

/-- The spacing of the binary64 values around `x`: the least power of two `q`,
searched upwards from `q`, with `x / q < 2 ^ 53`; `fuel` bounds the number of
doublings. -/
def quantumFrom : Nat → Nat → Nat → Nat
  | 0, _, q => q
  | fuel + 1, x, q => if x / q < 2 ^ 53 then q else quantumFrom fuel x (2 * q)

/-- The multiple of `q` nearest to `x`; half way between two multiples the one
with the even factor. -/
def roundTo (q x : Nat) : Nat :=
  if 2 * (x % q) < q then x / q * q
  else if q < 2 * (x % q) then (x / q + 1) * q
  else if x / q % 2 = 0 then x / q * q
  else (x / q + 1) * q

/-- Rounding of a natural number to binary64, round to nearest, ties to even. -/
def roundNat (x : Nat) : Nat := roundTo (quantumFrom x x 1) x

/-- Rounding of an integer to binary64; the format is symmetric in the sign. -/
def roundToDouble (x : Int) : Int :=
  if 0 ≤ x then (roundNat x.toNat : Int) else -(roundNat (-x).toNat : Int)

/-- JavaScript `a + b` on integer-valued numbers. -/
def jsAdd (a b : Int) : Int := roundToDouble (a + b)

/-- JavaScript `a - b` on integer-valued numbers. -/
def jsSub (a b : Int) : Int := roundToDouble (a - b)

/-- JavaScript `a * b` on integer-valued numbers. -/
def jsMul (a b : Int) : Int := roundToDouble (a * b)

/-! ## Data model -/

/-- One skill record: the object shape of `initialSkillState` (App.js 10-14). -/
structure SkillRecord where
  level : Int
  currentPoints : Int
  pointsToNextLevel : Int
deriving DecidableEq

/-- The constant `initialSkillState` (App.js 10-14). -/
def initialSkillState : SkillRecord :=
  { level := 1, currentPoints := 0, pointsToNextLevel := 100 }

/-- The function `calculatePointsToNextLevel` (App.js 21-24). -/
def calculatePointsToNextLevel (currentLevel : Int) : Int :=
  if currentLevel < 1 then 100 else jsAdd 100 (jsMul (jsSub currentLevel 1) 20)

/-- The record invariant of the data model: positive level, stored threshold
derived from the level, points inside `[0, threshold)`. -/
def SkillRecord.Valid (r : SkillRecord) : Prop :=
  1 ≤ r.level ∧ r.pointsToNextLevel = calculatePointsToNextLevel r.level ∧
    0 ≤ r.currentPoints ∧ r.currentPoints < r.pointsToNextLevel

instance (r : SkillRecord) : Decidable r.Valid := by
  unfold SkillRecord.Valid; infer_instance

/-- An award whose sum `currentPoints + pointsToAdd` and whose first remainder
`currentPoints + pointsToAdd - pointsToNextLevel` are safe integers, at most
`2 ^ 53` in magnitude: the loop then subtracts without rounding. -/
def SafeAward (skill : SkillRecord) (pointsToAdd : Int) : Prop :=
  -2 ^ 53 ≤ skill.currentPoints + pointsToAdd ∧
    skill.currentPoints + pointsToAdd ≤ 2 ^ 53 ∧
    skill.currentPoints + pointsToAdd - skill.pointsToNextLevel ≤ 2 ^ 53

instance (skill : SkillRecord) (pointsToAdd : Int) : Decidable (SafeAward skill pointsToAdd) := by
  unfold SafeAward; infer_instance

/-! ## The leveling loop of `addPoints` (App.js 133-149) -/

/-- The variables the `while` loop of `addPoints` reads and writes:
`currentSkillData.currentPoints`, `newLevel`, `newPointsToNextLevel`,
`leveledUp`. -/
structure LoopVars where
  currentPoints : Int
  newLevel : Int
  newPointsToNextLevel : Int
  leveledUp : Bool
deriving DecidableEq

/-- One execution of the loop body (App.js 142-145). -/
def loopBody (v : LoopVars) : LoopVars :=
  { currentPoints := jsSub v.currentPoints v.newPointsToNextLevel
    newLevel := jsAdd v.newLevel 1
    newPointsToNextLevel := calculatePointsToNextLevel (jsAdd v.newLevel 1)
    leveledUp := true }

/-- The `while (currentPoints >= newPointsToNextLevel)` loop (App.js 141-146).
Each unit of fuel pays for one evaluation of the guard. -/
def levelLoop : Nat → LoopVars → Option LoopVars
  | 0, _ => none
  | fuel + 1, v =>
    if v.currentPoints ≥ v.newPointsToNextLevel then levelLoop fuel (loopBody v)
    else some v

/-- What the leveling part of `addPoints` produces: the new record
`currentSkillData` and the flag `leveledUp`. -/
structure Leveled where
  record : SkillRecord
  leveledUp : Bool
deriving DecidableEq

/-- Lines 133-149 of `addPoints`: copy the record, add the points, run the
loop, store `newLevel` and `newPointsToNextLevel` back into the copy. -/
def addPointsLeveling (fuel : Nat) (skill : SkillRecord) (pointsToAdd : Int) :
    Option Leveled :=
  match levelLoop fuel
      { currentPoints := jsAdd skill.currentPoints pointsToAdd
        newLevel := skill.level
        newPointsToNextLevel := skill.pointsToNextLevel
        leveledUp := false } with
  | none => none
  | some v =>
    some { record := { level := v.newLevel
                       currentPoints := v.currentPoints
                       pointsToNextLevel := v.newPointsToNextLevel }
           leveledUp := v.leveledUp }

/-! ## Application state (App.js 26-38) -/

/-- The four keys of the `skills` object (App.js 30-35); every call of
`addPoints` in the component passes one of them (App.js 306-402). -/
inductive SkillName where
  | Forca
  | Aerobico
  | Inteligencia
  | Companheirismo
deriving DecidableEq

/-- The JavaScript string a skill key stands for. -/
def SkillName.toString : SkillName → String
  | .Forca => "Forca"
  | .Aerobico => "Aerobico"
  | .Inteligencia => "Inteligencia"
  | .Companheirismo => "Companheirismo"

/-- The `skills` object: a record under each of the four keys. -/
abbrev Skills := SkillName → SkillRecord

/-- The `skills` field of a stored document: the records present in it. -/
abbrev SkillsField := SkillName → Option SkillRecord

/-- A call `setDoc(userDocRef, data, options)` whose data has the one field
`skills`, here `payload`; the document path is determined by the user id it was
built from (App.js 132). -/
structure SetDocCall where
  userId : String
  payload : SkillsField
  merge : Bool

/-- Outcome of the awaited `setDoc` promise: fulfilled, or rejected with an
error whose `message` is `detail`. -/
inductive WriteOutcome where
  | ok
  | failed (detail : String)
deriving DecidableEq

/-- The state of the `App` component (App.js 27-38), the pending `setTimeout`
callbacks of `showMessage` (each one clears the message slot when due), a clock
in milliseconds, and the `setDoc` calls issued so far. -/
structure AppState where
  db : Option Unit
  userId : String
  skills : Skills
  loading : Bool
  message : String
  messageType : String
  now : Nat
  timers : List Nat
  writes : List SetDocCall

/-- The initial values of the `useState` hooks (App.js 27-38). -/
def initialAppState : AppState :=
  { db := none
    userId := "carregando..."
    skills := fun _ => initialSkillState
    loading := true
    message := ""
    messageType := ""
    now := 0
    timers := []
    writes := [] }

/-! ## Notifications (App.js 40-48, 215) -/

/-- The function `showMessage` (App.js 40-48): fill the slot and schedule a
callback 3000 ms from now. The function it returns (`clearTimeout(timer)`) is
dropped by every caller (App.js 65, 94, 97, 102, 114, 124, 159, 161, 166), so
no scheduled callback is ever cancelled. -/
def showMessage (s : AppState) (text : String) (type : String) : AppState :=
  { s with message := text, messageType := type, timers := s.timers ++ [s.now + 3000] }

/-- Time passes until `t`: every pending callback due by then runs
(`setMessage(''); setMessageType('')`, App.js 44-45) and is removed. -/
def advanceTo (s : AppState) (t : Nat) : AppState :=
  if s.timers.any (fun due => decide (due ≤ t)) then
    { s with message := "", messageType := ""
             timers := s.timers.filter (fun due => decide (t < due))
             now := max s.now t }
  else { s with now := max s.now t }

/-- The notification is rendered iff `message` is truthy (App.js 215). -/
def AppState.messageVisible (s : AppState) : Bool := s.message != ""

/-! ## Remote document store -/

/-- Firestore `setDoc` on one document (`none`: the document does not exist).
Without `merge` the document is replaced by the payload; with `merge: true`
every record present in the payload is written over the stored one and records
absent from the payload are kept. Records carry all three fields, so merging a
record field by field is replacing it. -/
def applySetDoc (doc : Option SkillsField) (c : SetDocCall) : Option SkillsField :=
  if c.merge then
    some (fun k =>
      match c.payload k with
      | some r => some r
      | none =>
        match doc with
        | some d => d k
        | none => none)
  else some c.payload

/-! ## Award and persist: `addPoints` (App.js 122-170) -/

/-- Text of the guard's notification (App.js 124). -/
def notReadyText : String :=
  "Sistema não pronto. Aguarde o carregamento ou verifique a conexão do Firebase."

/-- Text of the level-up notification (App.js 159). `toString` prints the
decimal digits of the level, as the template literal does for an integer of
magnitude up to `2 ^ 53`. -/
def levelUpText (skillName : SkillName) (newLevel : Int) : String :=
  "Parabéns! Sua habilidade de " ++ skillName.toString ++ " subiu para o Nível " ++
    toString newLevel ++ "!"

/-- Text of the plain notification (App.js 161), with the digits of the award
printed as in `levelUpText`. -/
def pointsText (pointsToAdd : Int) (skillName : SkillName) : String :=
  "+" ++ toString pointsToAdd ++ " pontos para " ++ skillName.toString ++ "!"

/-- Text of the failure notification (App.js 166). -/
def updateErrorText (skillName : SkillName) (detail : String) : String :=
  "Erro ao atualizar " ++ skillName.toString ++ ": " ++ detail

/-- The payload of the write of `addPoints` (App.js 156): the spread of the
in-memory `skills` with the key `skillName` replaced by `currentSkillData`. -/
def addPointsPayload (skills : Skills) (skillName : SkillName)
    (currentSkillData : SkillRecord) : SkillsField :=
  fun k => some (Function.update skills skillName currentSkillData k)

/-- The function `addPoints` (App.js 122-170), with the outcome of the awaited
write as a parameter. `none` only when the loop ran out of fuel. -/
def addPoints (fuel : Nat) (s : AppState) (skillName : SkillName) (pointsToAdd : Int)
    (outcome : WriteOutcome) : Option AppState :=
  if s.db.isNone || s.userId == "" then
    some (showMessage s notReadyText "error")
  else
    let s1 := { s with loading := true }
    match addPointsLeveling fuel (s.skills skillName) pointsToAdd with
    | none => none
    | some r =>
      let s2 := { s1 with skills := Function.update s1.skills skillName r.record }
      let s3 := { s2 with writes := s2.writes ++
        [{ userId := s.userId
           payload := addPointsPayload s.skills skillName r.record
           merge := true }] }
      let s4 :=
        match outcome with
        | .ok =>
          if r.leveledUp then
            showMessage s3 (levelUpText skillName r.record.level) "success"
          else showMessage s3 (pointsText pointsToAdd skillName) "success"
        | .failed detail => showMessage s3 (updateErrorText skillName detail) "error"
      some { s4 with loading := false }

/-- The state after `setDb(firestore)` (App.js 74) and before the first
`setUserId` (App.js 86): the store handle exists, `userId` is still the
placeholder of App.js 29. -/
def storeCreatedState : AppState := { initialAppState with db := some () }

/-- A signed-in client whose in-memory skill set is the default one: the state
after `setDb` (App.js 74) and `setUserId` (App.js 86) for the user `u1`. -/
def signedInState : AppState := { storeCreatedState with userId := "u1", loading := false }

/-- A remote document in which `Aerobico` has advanced to level 5 while the
other three skills hold the seeded record. -/
def advancedRemote : SkillsField := fun k =>
  match k with
  | .Aerobico => some { level := 5, currentPoints := 10, pointsToNextLevel := 180 }
  | _ => some initialSkillState

/-- Two notifications one second apart: `showMessage('A')` at 0 ms, then
`showMessage('B')` at 1000 ms. -/
def twoMessages : AppState :=
  showMessage (advanceTo (showMessage initialAppState "A" "info") 1000) "B" "info"

/-! ## Session bootstrap: the `onSnapshot` callback (App.js 90-99) -/

/-- The success callback passed to `onSnapshot` (App.js 90-99). `docSnap` is
`none` when `docSnap.exists()` is false and otherwise the `skills` object of
the stored document; `currentUserId` is the `user.uid` the document reference
was built from (App.js 85-88). `capturedSkills` is the `skills` of the render
whose effect run registered this listener (App.js 50-120): the callback closes
over it, and since the effect returns no cleanup and drops the unsubscribe
function of `onSnapshot`, a listener registered by an earlier run stays active
with the set it captured. -/
def onSnapshotCallback (s : AppState) (capturedSkills : Skills) (currentUserId : String)
    (docSnap : Option Skills) : AppState :=
  let s1 :=
    match docSnap with
    | some fetchedSkills =>
      showMessage { s with skills := fetchedSkills } "Dados de habilidades carregados!" "success"
    | none =>
      showMessage
        { s with writes := s.writes ++
            [({ userId := currentUserId
                payload := fun k => some (capturedSkills k)
                merge := false } : SetDocCall)] }
        "Dados de habilidades inicializados!" "info"
  { s1 with loading := false }

/-! ## Title display (App.js 16-19, 257-258) -/

/-- The constant `levelTitles` (App.js 16-19). -/
def levelTitles : List String :=
  ["Iniciante", "Aspirante", "Aprendiz", "Praticante", "Adepto",
   "Competente", "Especialista", "Mestre", "Visionário", "Lendário", "Monarca das Sombras"]

/-- Indexing `levelTitles[i]` with an integer: `none` stands for `undefined`,
the value outside `0 .. length - 1`. -/
def levelTitlesAt (i : Int) : Option String :=
  if 0 ≤ i then levelTitles[i.toNat]? else none

/-- The constant `displayLevel` of the skill card (App.js 257):
`Math.min(skill.level, levelTitles.length - 1)`. -/
def displayLevel (level : Int) : Int :=
  min level ((levelTitles.length : Int) - 1)

/-- The fallback text of App.js 258. -/
def levelFallbackText (displayed : Int) : String :=
  "Nível " ++ toString displayed

/-- The constant `title` of the skill card (App.js 258):
`levelTitles[displayLevel - 1] || fallback`; the fallback is taken when the
entry is `undefined` or the empty string. The card shows this string in upper
case (App.js 284). -/
def title (level : Int) : String :=
  match levelTitlesAt (displayLevel level - 1) with
  | some t => if t = "" then levelFallbackText (displayLevel level) else t
  | none => levelFallbackText (displayLevel level)

/-- The state the client reaches from `storeCreatedState` when `Forca` is
awarded 10 points before the first snapshot arrives. -/
def awardedBeforeSnapshot : Option AppState :=
  addPoints 1 storeCreatedState .Forca 10 .ok

/-- A valid record at level `10 ^ 15` whose points are `2 ^ 53`: one more point
is not a binary64 value. -/
def roundingRecord : SkillRecord :=
  { level := 1000000000000000, currentPoints := 9007199254740992
    pointsToNextLevel := 20000000000000080 }

/-- A valid record at level `10 ^ 15`, four points below its threshold. -/
def nearThresholdRecord : SkillRecord :=
  { level := 1000000000000000, currentPoints := 20000000000000076
    pointsToNextLevel := 20000000000000080 }

/-- A valid record at level `2 ^ 53`, where `level + 1` rounds back to the
level. -/
def saturatedRecord : SkillRecord :=
  { level := 9007199254740992, currentPoints := 0
    pointsToNextLevel := 180143985094819904 }

/-- The loop variables `addPoints` starts from on `saturatedRecord` with an
award of `2 ^ 120` (App.js 135-139). -/
def saturatedStart : LoopVars :=
  { currentPoints := jsAdd saturatedRecord.currentPoints (2 ^ 120)
    newLevel := saturatedRecord.level
    newPointsToNextLevel := saturatedRecord.pointsToNextLevel
    leveledUp := false }

/-- The signed-in client holding `saturatedRecord` under `Forca`. -/
def saturatedState : AppState :=
  { signedInState with skills := Function.update signedInState.skills .Forca saturatedRecord }

/-! ## Lemmas on rounding -/

lemma quantumFrom_spec : ∀ (fuel x e : Nat), x / 2 ^ e < 2 ^ (fuel + 53) →
    (e = 0 ∨ 2 ^ (e + 52) ≤ x) →
    ∃ e', quantumFrom fuel x (2 ^ e) = 2 ^ e' ∧ x < 2 ^ (e' + 53) ∧
      (e' = 0 ∨ 2 ^ (e' + 52) ≤ x) := by
  intro fuel
  induction fuel with
  | zero =>
    intro x e hf hl
    refine ⟨e, rfl, ?_, hl⟩
    rw [Nat.div_lt_iff_lt_mul (by positivity)] at hf
    rw [pow_add, mul_comm]
    simpa using hf
  | succ n ih =>
    intro x e hf hl
    by_cases hq : x / 2 ^ e < 2 ^ 53
    · refine ⟨e, by simp only [quantumFrom, if_pos hq], ?_, hl⟩
      rw [Nat.div_lt_iff_lt_mul (by positivity)] at hq
      rw [pow_add, mul_comm]
      exact hq
    · have hstep : quantumFrom (n + 1) x (2 ^ e) = quantumFrom n x (2 ^ (e + 1)) := by
        simp only [quantumFrom, if_neg hq]
        rw [pow_succ, mul_comm]
      rw [hstep]
      apply ih
      · rw [Nat.div_lt_iff_lt_mul (by positivity)] at hf ⊢
        calc x < 2 ^ (n + 1 + 53) * 2 ^ e := hf
          _ = 2 ^ (n + 53) * 2 ^ (e + 1) := by ring
      · right
        have h53 : 2 ^ 53 ≤ x / 2 ^ e := by omega
        rw [Nat.le_div_iff_mul_le (by positivity)] at h53
        calc 2 ^ (e + 1 + 52) = 2 ^ 53 * 2 ^ e := by ring
          _ ≤ x := h53

lemma quantum_spec (x : Nat) :
    ∃ e, quantumFrom x x 1 = 2 ^ e ∧ x < 2 ^ (e + 53) ∧ (e = 0 ∨ 2 ^ (e + 52) ≤ x) := by
  have h := quantumFrom_spec x x 0 (by
    simp only [pow_zero, Nat.div_one]
    calc x < 2 ^ x := Nat.lt_two_pow x
      _ ≤ 2 ^ (x + 53) := Nat.pow_le_pow_right (by norm_num) (by omega)) (Or.inl rfl)
  simpa using h

lemma roundTo_lower (q x : Nat) : x / q * q ≤ roundTo q x := by
  unfold roundTo
  split_ifs <;> nlinarith [Nat.zero_le q, Nat.zero_le (x / q)]

lemma roundTo_upper (q x : Nat) : roundTo q x ≤ (x / q + 1) * q := by
  unfold roundTo
  split_ifs <;> nlinarith [Nat.zero_le q, Nat.zero_le (x / q)]

lemma roundTo_one (x : Nat) : roundTo 1 x = x := by
  simp [roundTo, Nat.mod_one]

lemma roundTo_mono (q x y : Nat) (hq : 0 < q) (h : x ≤ y) : roundTo q x ≤ roundTo q y := by
  have hd : x / q ≤ y / q := Nat.div_le_div_right h
  rcases Nat.lt_or_ge (x / q) (y / q) with hlt | hge
  · calc roundTo q x ≤ (x / q + 1) * q := roundTo_upper q x
      _ ≤ y / q * q := Nat.mul_le_mul_right q hlt
      _ ≤ roundTo q y := roundTo_lower q y
  · have he : x / q = y / q := le_antisymm hd hge
    have hx := Nat.div_add_mod x q
    have hy := Nat.div_add_mod y q
    have hr : x % q ≤ y % q := by
      rw [he] at hx
      have : q * (y / q) + x % q ≤ q * (y / q) + y % q := by omega
      omega
    unfold roundTo
    rw [he]
    split_ifs <;> first | omega | nlinarith [Nat.zero_le q]

lemma roundNat_of_lt (x : Nat) (h : x < 2 ^ 53) : roundNat x = x := by
  obtain ⟨e, hq, _, he⟩ := quantum_spec x
  have he0 : e = 0 := by
    rcases Nat.eq_zero_or_pos e with h0 | hpos
    · exact h0
    · exfalso
      rcases he with he | he
      · omega
      · have : 2 ^ 53 ≤ 2 ^ (e + 52) := Nat.pow_le_pow_right (by norm_num) (by omega)
        omega
  subst he0
  unfold roundNat
  rw [hq]
  simp [roundTo_one]

lemma roundNat_of_le (x : Nat) (h : x ≤ 2 ^ 53) : roundNat x = x := by
  rcases Nat.lt_or_ge x (2 ^ 53) with hlt | hge
  · exact roundNat_of_lt x hlt
  · have : x = 2 ^ 53 := le_antisymm h hge
    subst this
    decide

lemma roundNat_mono (x y : Nat) (h : x ≤ y) : roundNat x ≤ roundNat y := by
  obtain ⟨ex, hqx, hxu, hxl⟩ := quantum_spec x
  obtain ⟨ey, hqy, hyu, hyl⟩ := quantum_spec y
  unfold roundNat
  rw [hqx, hqy]
  rcases Nat.lt_trichotomy ex ey with hlt | heq | hgt
  · have hyl' : 2 ^ (ey + 52) ≤ y := by
      rcases hyl with h0 | h0
      · omega
      · exact h0
    have hx1 : x / 2 ^ ex + 1 ≤ 2 ^ 53 := by
      have : x / 2 ^ ex < 2 ^ 53 := by
        rw [Nat.div_lt_iff_lt_mul (by positivity)]
        calc x < 2 ^ (ex + 53) := hxu
          _ = 2 ^ 53 * 2 ^ ex := by ring
      omega
    have hy1 : 2 ^ 52 ≤ y / 2 ^ ey := by
      rw [Nat.le_div_iff_mul_le (by positivity)]
      calc 2 ^ 52 * 2 ^ ey = 2 ^ (ey + 52) := by ring
        _ ≤ y := hyl'
    calc roundTo (2 ^ ex) x ≤ (x / 2 ^ ex + 1) * 2 ^ ex := roundTo_upper _ _
      _ ≤ 2 ^ 53 * 2 ^ ex := Nat.mul_le_mul_right _ hx1
      _ = 2 ^ (ex + 53) := by ring
      _ ≤ 2 ^ (ey + 52) := Nat.pow_le_pow_right (by norm_num) (by omega)
      _ = 2 ^ 52 * 2 ^ ey := by ring
      _ ≤ y / 2 ^ ey * 2 ^ ey := Nat.mul_le_mul_right _ hy1
      _ ≤ roundTo (2 ^ ey) y := roundTo_lower _ _
  · subst heq
    exact roundTo_mono _ _ _ (by positivity) h
  · exfalso
    have hxl' : 2 ^ (ex + 52) ≤ x := by
      rcases hxl with h0 | h0
      · omega
      · exact h0
    have : 2 ^ (ey + 53) ≤ 2 ^ (ex + 52) := Nat.pow_le_pow_right (by norm_num) (by omega)
    omega

lemma roundToDouble_of_nonneg (x : Int) (h : 0 ≤ x) :
    roundToDouble x = (roundNat x.toNat : Int) := by
  simp [roundToDouble, h]

lemma roundToDouble_of_neg (x : Int) (h : x < 0) :
    roundToDouble x = -(roundNat (-x).toNat : Int) := by
  have : ¬ 0 ≤ x := by omega
  simp [roundToDouble, this]

lemma roundToDouble_nonneg (x : Int) (h : 0 ≤ x) : 0 ≤ roundToDouble x := by
  rw [roundToDouble_of_nonneg x h]
  exact Int.natCast_nonneg _

lemma roundToDouble_exact (x : Int) (hlo : -2 ^ 53 ≤ x) (hhi : x ≤ 2 ^ 53) :
    roundToDouble x = x := by
  rcases le_or_lt 0 x with h | h
  · rw [roundToDouble_of_nonneg x h, roundNat_of_le _ (by norm_num at hhi ⊢; omega)]
    omega
  · rw [roundToDouble_of_neg x h, roundNat_of_le _ (by norm_num at hlo ⊢; omega)]
    omega

lemma roundToDouble_mono (x y : Int) (h : x ≤ y) : roundToDouble x ≤ roundToDouble y := by
  rcases le_or_lt 0 x with hx | hx
  · rw [roundToDouble_of_nonneg x hx, roundToDouble_of_nonneg y (by omega)]
    exact Int.ofNat_le.mpr (roundNat_mono _ _ (by omega))
  · rcases le_or_lt 0 y with hy | hy
    · rw [roundToDouble_of_neg x hx, roundToDouble_of_nonneg y hy]
      have h1 : (0 : Int) ≤ (roundNat (-x).toNat : Int) := Int.natCast_nonneg _
      have h2 : (0 : Int) ≤ (roundNat y.toNat : Int) := Int.natCast_nonneg _
      omega
    · rw [roundToDouble_of_neg x hx, roundToDouble_of_neg y hy]
      have := Int.ofNat_le.mpr (roundNat_mono (-y).toNat (-x).toNat (by omega))
      omega

/-- Rounding does not go below a safe integer that the exact value reaches. -/
lemma roundToDouble_ge (c x : Int) (hc1 : -2 ^ 53 ≤ c) (hc2 : c ≤ 2 ^ 53) (h : c ≤ x) :
    c ≤ roundToDouble x := by
  have := roundToDouble_mono c x h
  rw [roundToDouble_exact c hc1 hc2] at this
  exact this

lemma roundToDouble_le (c x : Int) (hc1 : -2 ^ 53 ≤ c) (hc2 : c ≤ 2 ^ 53) (h : x ≤ c) :
    roundToDouble x ≤ c := by
  have := roundToDouble_mono x c h
  rw [roundToDouble_exact c hc1 hc2] at this
  exact this

/-! ## Lemmas on the threshold -/

lemma two_pow_53 : (2 : Int) ^ 53 = 9007199254740992 := by norm_num

lemma calculatePointsToNextLevel_ge (l : Int) : 100 ≤ calculatePointsToNextLevel l := by
  unfold calculatePointsToNextLevel
  split
  · exact le_refl _
  · rename_i h
    have h1 : 0 ≤ jsSub l 1 := roundToDouble_nonneg _ (by omega)
    have h2 : 0 ≤ jsMul (jsSub l 1) 20 := roundToDouble_nonneg _ (by omega)
    exact roundToDouble_ge 100 _ (by norm_num) (by norm_num) (by omega)

lemma calculatePointsToNextLevel_mono (a b : Int) (h : a ≤ b) :
    calculatePointsToNextLevel a ≤ calculatePointsToNextLevel b := by
  by_cases ha : a < 1
  · have : calculatePointsToNextLevel a = 100 := by simp [calculatePointsToNextLevel, ha]
    rw [this]
    exact calculatePointsToNextLevel_ge b
  · have hb : ¬ b < 1 := by omega
    simp only [calculatePointsToNextLevel, if_neg ha, if_neg hb, jsAdd, jsMul, jsSub]
    apply roundToDouble_mono
    have h1 := roundToDouble_mono (a - 1) (b - 1) (by omega)
    have h2 := roundToDouble_mono (roundToDouble (a - 1) * 20) (roundToDouble (b - 1) * 20)
      (by omega)
    omega

/-- Where the exact threshold is a safe integer, no step of its computation
rounds. -/
lemma calculatePointsToNextLevel_exact (l : Int) (h1 : 1 ≤ l)
    (h : 100 + (l - 1) * 20 ≤ 2 ^ 53) :
    calculatePointsToNextLevel l = 100 + (l - 1) * 20 := by
  rw [two_pow_53] at h
  have hl : ¬ l < 1 := by omega
  simp only [calculatePointsToNextLevel, if_neg hl, jsAdd, jsMul, jsSub]
  rw [roundToDouble_exact (l - 1) (by rw [two_pow_53]; omega) (by rw [two_pow_53]; omega),
    roundToDouble_exact ((l - 1) * 20) (by rw [two_pow_53]; omega) (by rw [two_pow_53]; omega),
    roundToDouble_exact _ (by rw [two_pow_53]; omega) (by rw [two_pow_53]; omega)]

/-- A threshold below `2 ^ 53` was computed without rounding. -/
lemma calculatePointsToNextLevel_exact_of_lt (l : Int) (h1 : 1 ≤ l)
    (h : calculatePointsToNextLevel l < 2 ^ 53) :
    100 + (l - 1) * 20 < 2 ^ 53 ∧ calculatePointsToNextLevel l = 100 + (l - 1) * 20 := by
  have key : 100 + (l - 1) * 20 < 2 ^ 53 := by
    by_contra hc
    rw [two_pow_53] at hc h
    have hl : ¬ l < 1 := by omega
    simp only [calculatePointsToNextLevel, if_neg hl, jsAdd, jsMul, jsSub] at h
    have a1 : 0 ≤ roundToDouble (l - 1) := roundToDouble_nonneg _ (by omega)
    have a2 : 0 ≤ roundToDouble (roundToDouble (l - 1) * 20) :=
      roundToDouble_nonneg _ (by omega)
    -- the inner value reaches 2 ^ 53 - 100, so the sum reaches 2 ^ 53
    have b1 : 450359962737044 ≤ roundToDouble (l - 1) :=
      roundToDouble_ge 450359962737044 _ (by norm_num) (by norm_num) (by omega)
    by_cases hb1 : roundToDouble (l - 1) ≤ 450359962737044
    · have e1 : roundToDouble (l - 1) = 450359962737044 := by omega
      have hl1 : l - 1 ≤ 450359962737044 := by
        by_contra hgt
        have := roundToDouble_ge 450359962737045 (l - 1) (by norm_num) (by norm_num) (by omega)
        omega
      omega
    · have b2 : 9007199254740900 ≤ roundToDouble (roundToDouble (l - 1) * 20) :=
        roundToDouble_ge 9007199254740900 _ (by norm_num) (by norm_num) (by omega)
      have b3 := roundToDouble_ge 9007199254740992
        (100 + roundToDouble (roundToDouble (l - 1) * 20)) (by norm_num) (by norm_num) (by omega)
      omega
  exact ⟨key, calculatePointsToNextLevel_exact l h1 (le_of_lt key)⟩

/-! ## Lemmas on the loop -/

lemma levelLoop_exit (fuel : Nat) (v : LoopVars)
    (h : v.currentPoints < v.newPointsToNextLevel) : levelLoop (fuel + 1) v = some v := by
  have h' : ¬ v.currentPoints ≥ v.newPointsToNextLevel := by omega
  simp only [levelLoop, if_neg h']

lemma levelLoop_iter (fuel : Nat) (v : LoopVars)
    (h : v.newPointsToNextLevel ≤ v.currentPoints) :
    levelLoop (fuel + 1) v = levelLoop fuel (loopBody v) := by
  have h' : v.currentPoints ≥ v.newPointsToNextLevel := h
  simp only [levelLoop, if_pos h']

/-- A result of the loop does not depend on the fuel that was left over. -/
lemma levelLoop_fuel_succ : ∀ (fuel : Nat) (v r : LoopVars),
    levelLoop fuel v = some r → levelLoop (fuel + 1) v = some r := by
  intro fuel
  induction fuel with
  | zero => intro v r h; simp [levelLoop] at h
  | succ n ih =>
    intro v r h
    by_cases hg : v.newPointsToNextLevel ≤ v.currentPoints
    · rw [levelLoop_iter _ _ hg] at h ⊢
      exact ih _ _ h
    · have hlt : v.currentPoints < v.newPointsToNextLevel := by omega
      rw [levelLoop_exit _ _ hlt] at h ⊢
      exact h

lemma levelLoop_fuel_add (fuel k : Nat) (v r : LoopVars)
    (h : levelLoop fuel v = some r) : levelLoop (fuel + k) v = some r := by
  induction k with
  | zero => exact h
  | succ k ih => exact levelLoop_fuel_succ _ _ _ ih

/-- Two runs of the loop that both return agree. -/
lemma levelLoop_det (f₁ f₂ : Nat) (v r₁ r₂ : LoopVars)
    (h₁ : levelLoop f₁ v = some r₁) (h₂ : levelLoop f₂ v = some r₂) : r₁ = r₂ := by
  have a := levelLoop_fuel_add f₁ f₂ v r₁ h₁
  have b := levelLoop_fuel_add f₂ f₁ v r₂ h₂
  rw [Nat.add_comm] at b
  rw [a] at b
  exact Option.some.inj b

/-- With a threshold of at least 100 and points that are a safe integer the
loop returns within `currentPoints + 1` evaluations of its guard: every
subtraction is exact. -/
lemma levelLoop_returns_of_threshold : ∀ (n : Nat) (v : LoopVars),
    v.currentPoints.toNat ≤ n → v.currentPoints ≤ 2 ^ 53 → 100 ≤ v.newPointsToNextLevel →
    ∃ r, levelLoop (n + 1) v = some r := by
  intro n
  induction n with
  | zero =>
    intro v hn _ hp
    exact ⟨v, levelLoop_exit _ _ (by omega)⟩
  | succ n ih =>
    intro v hn hs hp
    by_cases hg : v.newPointsToNextLevel ≤ v.currentPoints
    · rw [levelLoop_iter _ _ hg]
      have hsub : jsSub v.currentPoints v.newPointsToNextLevel =
          v.currentPoints - v.newPointsToNextLevel := by
        rw [two_pow_53] at hs
        exact roundToDouble_exact _ (by rw [two_pow_53]; omega) (by rw [two_pow_53]; omega)
      apply ih
      · simp only [loopBody, hsub]; omega
      · simp only [loopBody, hsub]; rw [two_pow_53] at hs ⊢; omega
      · simp only [loopBody]; exact calculatePointsToNextLevel_ge _
    · exact ⟨v, levelLoop_exit _ _ (by omega)⟩

/-- An explicit fuel that is enough when the first remainder is a safe integer:
one guard evaluation for a possible first iteration with the stored threshold,
then at most one per 100 points left, then the failing guard. -/
lemma levelLoop_returns_within (v : LoopVars) (k : Nat)
    (h : v.currentPoints - v.newPointsToNextLevel ≤ 2 ^ 53) :
    ∃ r, levelLoop ((v.currentPoints - v.newPointsToNextLevel).toNat + 2 + k) v = some r := by
  by_cases hg : v.newPointsToNextLevel ≤ v.currentPoints
  · have hsub : jsSub v.currentPoints v.newPointsToNextLevel =
        v.currentPoints - v.newPointsToNextLevel := by
      rw [two_pow_53] at h
      exact roundToDouble_exact _ (by rw [two_pow_53]; omega) (by rw [two_pow_53]; omega)
    obtain ⟨r, hr⟩ := levelLoop_returns_of_threshold
      (v.currentPoints - v.newPointsToNextLevel).toNat (loopBody v)
      (by simp only [loopBody, hsub]; exact le_refl _)
      (by simp only [loopBody, hsub]; exact h)
      (by simp only [loopBody]; exact calculatePointsToNextLevel_ge _)
    refine ⟨r, ?_⟩
    apply levelLoop_fuel_add
    rw [levelLoop_iter _ _ hg]
    exact hr
  · refine ⟨v, ?_⟩
    have e : (v.currentPoints - v.newPointsToNextLevel).toNat + 2 + k =
        ((v.currentPoints - v.newPointsToNextLevel).toNat + 1 + k) + 1 := by omega
    rw [e]
    exact levelLoop_exit _ _ (by omega)

/-- Loop invariant, for every input: a derived threshold and non-negative
points are kept, rounding included, and on exit the points are below the
threshold. -/
lemma levelLoop_post : ∀ (fuel : Nat) (v r : LoopVars),
    levelLoop fuel v = some r →
    v.newPointsToNextLevel = calculatePointsToNextLevel v.newLevel →
    0 ≤ v.currentPoints →
    r.newPointsToNextLevel = calculatePointsToNextLevel r.newLevel ∧
      0 ≤ r.currentPoints ∧ r.currentPoints < r.newPointsToNextLevel := by
  intro fuel
  induction fuel with
  | zero => intro v r h; simp [levelLoop] at h
  | succ n ih =>
    intro v r h hp hc
    by_cases hg : v.newPointsToNextLevel ≤ v.currentPoints
    · rw [levelLoop_iter _ _ hg] at h
      exact ih _ _ h (by simp only [loopBody])
        (by simp only [loopBody]; exact roundToDouble_nonneg _ (by omega))
    · have hlt : v.currentPoints < v.newPointsToNextLevel := by omega
      rw [levelLoop_exit _ _ hlt] at h
      cases Option.some.inj h
      exact ⟨hp, hc, hlt⟩

/-- With a derived threshold and points below `2 ^ 53`, an iteration of the
body computes without rounding. -/
lemma loopBody_exact (v : LoopVars)
    (hp : v.newPointsToNextLevel = calculatePointsToNextLevel v.newLevel)
    (hl : 1 ≤ v.newLevel) (hg : v.newPointsToNextLevel ≤ v.currentPoints)
    (hs : v.currentPoints < 2 ^ 53) :
    loopBody v =
      { currentPoints := v.currentPoints - v.newPointsToNextLevel
        newLevel := v.newLevel + 1
        newPointsToNextLevel := calculatePointsToNextLevel (v.newLevel + 1)
        leveledUp := true } := by
  have hge := calculatePointsToNextLevel_ge v.newLevel
  have hlt : calculatePointsToNextLevel v.newLevel < 2 ^ 53 := by
    rw [← hp]; exact lt_of_le_of_lt hg hs
  obtain ⟨hex, _⟩ := calculatePointsToNextLevel_exact_of_lt _ hl hlt
  rw [two_pow_53] at hs hex
  have e1 : jsSub v.currentPoints v.newPointsToNextLevel =
      v.currentPoints - v.newPointsToNextLevel :=
    roundToDouble_exact _ (by rw [two_pow_53]; omega) (by rw [two_pow_53]; omega)
  have e2 : jsAdd v.newLevel 1 = v.newLevel + 1 :=
    roundToDouble_exact _ (by rw [two_pow_53]; omega) (by rw [two_pow_53]; omega)
  simp only [loopBody, e1, e2]

/-- The sum of the thresholds of the levels `L .. M - 1` splits off its first
term. -/
lemma thresholdSum_split (L M : Int) (h : L < M) :
    ∑ l ∈ Finset.Ico L M, calculatePointsToNextLevel l =
      calculatePointsToNextLevel L + ∑ l ∈ Finset.Ico (L + 1) M, calculatePointsToNextLevel l := by
  rw [← Finset.Ioo_insert_left h, Finset.sum_insert (by simp)]
  congr 1
  congr 1
  ext x
  simp only [Finset.mem_Ioo, Finset.mem_Ico]
  omega

/-- The loop on points below `2 ^ 53`, where it computes without rounding: the
level does not decrease, `leveledUp` is set exactly when the level grew, and
the points the loop starts with are the points it ends with plus the thresholds
of the levels it passed. -/
lemma levelLoop_safe : ∀ (fuel : Nat) (v r : LoopVars),
    levelLoop fuel v = some r →
    v.newPointsToNextLevel = calculatePointsToNextLevel v.newLevel →
    1 ≤ v.newLevel → 0 ≤ v.currentPoints → v.currentPoints < 2 ^ 53 →
    v.newLevel ≤ r.newLevel ∧
      (r.leveledUp = true ↔ (v.leveledUp = true ∨ v.newLevel < r.newLevel)) ∧
      v.currentPoints = r.currentPoints +
        ∑ l ∈ Finset.Ico v.newLevel r.newLevel, calculatePointsToNextLevel l := by
  intro fuel
  induction fuel with
  | zero => intro v r h; simp [levelLoop] at h
  | succ n ih =>
    intro v r h hp hl hc hs
    by_cases hg : v.newPointsToNextLevel ≤ v.currentPoints
    · rw [levelLoop_iter _ _ hg, loopBody_exact v hp hl hg hs] at h
      have hge := calculatePointsToNextLevel_ge v.newLevel
      obtain ⟨h1, h2, h3⟩ := ih _ _ h rfl (by show 1 ≤ v.newLevel + 1; omega)
        (by show 0 ≤ v.currentPoints - v.newPointsToNextLevel; omega)
        (by show v.currentPoints - v.newPointsToNextLevel < 2 ^ 53
            rw [two_pow_53] at hs ⊢; omega)
      simp only at h1 h2 h3
      have hlt : v.newLevel < r.newLevel := by omega
      refine ⟨by omega, ?_, ?_⟩
      · constructor
        · intro _; right; exact hlt
        · intro _; exact h2.mpr (Or.inl trivial)
      · rw [thresholdSum_split _ _ hlt, ← hp]
        linarith
    · have hlt : v.currentPoints < v.newPointsToNextLevel := by omega
      rw [levelLoop_exit _ _ hlt] at h
      cases Option.some.inj h
      refine ⟨le_refl _, ?_, by simp⟩
      constructor
      · intro h; exact Or.inl h
      · intro h; rcases h with h | h
        · exact h
        · omega

/-! ## Lemmas on the leveling part of `addPoints` -/

/-- The loop variables `addPoints` starts from (App.js 135-139). -/
lemma addPointsLeveling_some_iff (fuel : Nat) (skill : SkillRecord) (pointsToAdd : Int)
    (r : Leveled) :
    addPointsLeveling fuel skill pointsToAdd = some r ↔
      levelLoop fuel
        { currentPoints := jsAdd skill.currentPoints pointsToAdd
          newLevel := skill.level
          newPointsToNextLevel := skill.pointsToNextLevel
          leveledUp := false } =
        some { currentPoints := r.record.currentPoints
               newLevel := r.record.level
               newPointsToNextLevel := r.record.pointsToNextLevel
               leveledUp := r.leveledUp } := by
  unfold addPointsLeveling
  cases h : levelLoop fuel
      { currentPoints := jsAdd skill.currentPoints pointsToAdd
        newLevel := skill.level
        newPointsToNextLevel := skill.pointsToNextLevel
        leveledUp := false } with
  | none => simp
  | some v =>
    simp only [Option.some.injEq]
    constructor
    · intro e; subst e; rfl
    · intro e; subst e; rfl

/-- Two returning runs of the leveling part agree. -/
lemma addPointsLeveling_det (f₁ f₂ : Nat) (skill : SkillRecord) (pointsToAdd : Int)
    (r₁ r₂ : Leveled) (h₁ : addPointsLeveling f₁ skill pointsToAdd = some r₁)
    (h₂ : addPointsLeveling f₂ skill pointsToAdd = some r₂) : r₁ = r₂ := by
  have e := levelLoop_det _ _ _ _ _ ((addPointsLeveling_some_iff _ _ _ _).mp h₁)
    ((addPointsLeveling_some_iff _ _ _ _).mp h₂)
  cases r₁ with
  | mk rec₁ b₁ =>
    cases r₂ with
    | mk rec₂ b₂ =>
      cases rec₁; cases rec₂
      simp only [LoopVars.mk.injEq] at e
      obtain ⟨e1, e2, e3, e4⟩ := e
      subst e1 e2 e3 e4
      rfl

/-- A sum that is a safe integer is added without rounding. -/
lemma jsAdd_safe (skill : SkillRecord) (pointsToAdd : Int) (h : SafeAward skill pointsToAdd) :
    jsAdd skill.currentPoints pointsToAdd = skill.currentPoints + pointsToAdd :=
  roundToDouble_exact _ h.1 h.2.1

/-- An award to a valid record is safe when the sum is at most `2 ^ 53`. -/
lemma safeAward_of_valid (skill : SkillRecord) (pointsToAdd : Int) (hvalid : skill.Valid)
    (hn : 0 ≤ pointsToAdd) (hs : skill.currentPoints + pointsToAdd ≤ 2 ^ 53) :
    SafeAward skill pointsToAdd := by
  obtain ⟨_, hp, hc, _⟩ := hvalid
  have hge := calculatePointsToNextLevel_ge skill.level
  refine ⟨?_, hs, ?_⟩
  · rw [two_pow_53]; omega
  · rw [two_pow_53] at hs ⊢; omega

/-- The leveling part of `addPoints` returns on every safe award, within an
explicit number of guard evaluations. -/
lemma addPointsLeveling_returns (skill : SkillRecord) (pointsToAdd : Int) (k : Nat)
    (h : SafeAward skill pointsToAdd) :
    ∃ r, addPointsLeveling
      ((skill.currentPoints + pointsToAdd - skill.pointsToNextLevel).toNat + 2 + k)
      skill pointsToAdd = some r := by
  obtain ⟨v, hv⟩ := levelLoop_returns_within
    { currentPoints := skill.currentPoints + pointsToAdd
      newLevel := skill.level
      newPointsToNextLevel := skill.pointsToNextLevel
      leveledUp := false } k h.2.2
  refine ⟨⟨⟨v.newLevel, v.currentPoints, v.newPointsToNextLevel⟩, v.leveledUp⟩, ?_⟩
  rw [addPointsLeveling_some_iff, jsAdd_safe skill pointsToAdd h]
  exact hv

/-- A run of the leveling part on a valid record whose sum is below `2 ^ 53`:
the level does not decrease, `leveledUp` is set exactly when it grew, and the
points are conserved. -/
lemma addPointsLeveling_safe (fuel : Nat) (skill : SkillRecord) (pointsToAdd : Int)
    (r : Leveled) (hvalid : skill.Valid) (hn : 0 ≤ pointsToAdd)
    (hs : skill.currentPoints + pointsToAdd < 2 ^ 53)
    (h : addPointsLeveling fuel skill pointsToAdd = some r) :
    skill.level ≤ r.record.level ∧
      (r.leveledUp = true ↔ skill.level < r.record.level) ∧
      skill.currentPoints + pointsToAdd = r.record.currentPoints +
        ∑ l ∈ Finset.Ico skill.level r.record.level, calculatePointsToNextLevel l := by
  have hsafe := safeAward_of_valid skill pointsToAdd hvalid hn (le_of_lt hs)
  obtain ⟨hl, hp, hc, _⟩ := hvalid
  have hrun := (addPointsLeveling_some_iff _ _ _ _).mp h
  rw [jsAdd_safe skill pointsToAdd hsafe] at hrun
  obtain ⟨h1, h2, h3⟩ := levelLoop_safe _ _ _ hrun hp hl
    (by show 0 ≤ skill.currentPoints + pointsToAdd; omega) hs
  simp only [Bool.false_eq_true, false_or] at h2
  exact ⟨h1, h2, h3⟩

/-- An award of 0 to a record whose points are a JavaScript number below the
stored threshold returns the record, with `leveledUp` not set. -/
lemma leveling_zero_award (skill : SkillRecord) (k : Nat)
    (hd : roundToDouble skill.currentPoints = skill.currentPoints)
    (hlt : skill.currentPoints < skill.pointsToNextLevel) :
    addPointsLeveling (k + 1) skill 0 = some { record := skill, leveledUp := false } := by
  rw [addPointsLeveling_some_iff]
  have e : jsAdd skill.currentPoints 0 = skill.currentPoints := by
    simp only [jsAdd, add_zero]; exact hd
  rw [e]
  exact levelLoop_exit _ _ hlt

/-! ## Claims on the progression engine -/

/-- C1: for a valid record and a non-negative award, every record the leveling
loop of `addPoints` returns has
`0 <= currentPoints < calculatePointsToNextLevel(level)` and a stored
`pointsToNextLevel` equal to `calculatePointsToNextLevel(level)`, rounding
included; and the loop does return a record whenever
`currentPoints + pointsToAdd` is at most `2 ^ 53`. -/
theorem addPoints_leveling_keeps_invariant (skill : SkillRecord) (pointsToAdd : Int)
    (hvalid : skill.Valid) (hn : 0 ≤ pointsToAdd) :
    (skill.currentPoints + pointsToAdd ≤ 2 ^ 53 →
        ∃ fuel r, addPointsLeveling fuel skill pointsToAdd = some r) ∧
      ∀ fuel r, addPointsLeveling fuel skill pointsToAdd = some r →
        0 ≤ r.record.currentPoints ∧
        r.record.currentPoints < calculatePointsToNextLevel r.record.level ∧
        r.record.pointsToNextLevel = calculatePointsToNextLevel r.record.level := by
  constructor
  · intro hs
    obtain ⟨r, hr⟩ := addPointsLeveling_returns skill pointsToAdd 0
      (safeAward_of_valid skill pointsToAdd hvalid hn hs)
    exact ⟨_, r, hr⟩
  · intro fuel r h
    obtain ⟨_, hp, hc, _⟩ := hvalid
    obtain ⟨h1, h2, h3⟩ := levelLoop_post _ _ _ ((addPointsLeveling_some_iff _ _ _ _).mp h)
      hp (roundToDouble_nonneg _ (by omega))
    simp only at h1 h2 h3
    exact ⟨h2, by omega, h1⟩

/-- Witness of C1: the fresh record with an award of 250. -/
theorem addPoints_leveling_keeps_invariant_witness :
    initialSkillState.Valid ∧ (0 : Int) ≤ 250 ∧
      ((initialSkillState.currentPoints + 250 ≤ 2 ^ 53 →
          ∃ fuel r, addPointsLeveling fuel initialSkillState 250 = some r) ∧
        ∀ fuel r, addPointsLeveling fuel initialSkillState 250 = some r →
          0 ≤ r.record.currentPoints ∧
          r.record.currentPoints < calculatePointsToNextLevel r.record.level ∧
          r.record.pointsToNextLevel = calculatePointsToNextLevel r.record.level) :=
  ⟨by decide, by decide,
    addPoints_leveling_keeps_invariant initialSkillState 250 (by decide) (by decide)⟩

/-- C2, as stated, fails: at level 1801439850948195 the exact value
`100 + (level - 1) * 20` is 36028797018963980, which is not a binary64 value;
the function returns 36028797018963984. -/
theorem calculatePointsToNextLevel_rounds :
    (1 : Int) < 1801439850948195 ∧
      calculatePointsToNextLevel 1801439850948195 = 36028797018963984 ∧
      (100 + (1801439850948195 - 1) * 20 : Int) = 36028797018963980 ∧
      calculatePointsToNextLevel 1801439850948195 ≠ 100 + (1801439850948195 - 1) * 20 := by
  decide

/-- C2, amended: `calculatePointsToNextLevel(level)` is 100 for `level <= 1`,
and `100 + (level - 1) * 20` for every `level > 1` for which that value is at
most `2 ^ 53`; it is 100, 120 and 180 at the levels 1, 2 and 5. -/
theorem calculatePointsToNextLevel_contract (level : Int) :
    (level ≤ 1 → calculatePointsToNextLevel level = 100) ∧
      (1 < level → 100 + (level - 1) * 20 ≤ 2 ^ 53 →
        calculatePointsToNextLevel level = 100 + (level - 1) * 20) ∧
      calculatePointsToNextLevel 1 = 100 ∧ calculatePointsToNextLevel 2 = 120 ∧
      calculatePointsToNextLevel 5 = 180 := by
  refine ⟨?_, ?_, by decide, by decide, by decide⟩
  · intro h
    rcases lt_or_eq_of_le h with h1 | h1
    · simp [calculatePointsToNextLevel, h1]
    · subst h1; decide
  · intro h1 hs
    exact calculatePointsToNextLevel_exact level (by omega) hs

/-- Witness of C2 amended: the levels 0 and 5. -/
theorem calculatePointsToNextLevel_contract_witness :
    (0 : Int) ≤ 1 ∧ (1 : Int) < 5 ∧ (100 + (5 - 1) * 20 : Int) ≤ 2 ^ 53 ∧
      calculatePointsToNextLevel 0 = 100 ∧
      calculatePointsToNextLevel 5 = 100 + (5 - 1) * 20 :=
  ⟨by decide, by decide, by decide,
    (calculatePointsToNextLevel_contract 0).1 (by decide),
    (calculatePointsToNextLevel_contract 5).2.1 (by decide) (by decide)⟩

/-- C4: one award crosses several levels: from level 1 with 0 points, an award
of 250 gives level 3 with 30 points and threshold 140, two levels gained, for
every fuel of at least three guard evaluations. -/
theorem addPoints_leveling_multi_level (k : Nat) :
    ∃ r, addPointsLeveling (k + 3) initialSkillState 250 = some r ∧
      r.record.level = 3 ∧ r.record.currentPoints = 30 ∧
      r.record.pointsToNextLevel = 140 ∧
      r.record.level - initialSkillState.level = 2 ∧ r.leveledUp = true := by
  refine ⟨⟨⟨3, 30, 140⟩, true⟩, ?_, rfl, rfl, rfl, by decide, rfl⟩
  rw [addPointsLeveling_some_iff]
  have h : levelLoop 3 ⟨jsAdd initialSkillState.currentPoints 250, initialSkillState.level,
      initialSkillState.pointsToNextLevel, false⟩ = some ⟨30, 3, 140, true⟩ := by decide
  have h' := levelLoop_fuel_add 3 k _ _ h
  rw [Nat.add_comm] at h'
  exact h'

/-- C5, as stated, fails: the valid record `(10 ^ 15, 20000000000000076,
20000000000000080)` with an award of 5 meets the hypotheses with remainder
`currentPoints + pointsToAdd - T = 1`, but the sum 20000000000000081 is not a
binary64 value: it is stored as 20000000000000080 and the loop returns 0
points. -/
theorem addPoints_leveling_single_level_rounds :
    nearThresholdRecord.Valid ∧ (0 : Int) ≤ 5 ∧
      calculatePointsToNextLevel nearThresholdRecord.level ≤
        nearThresholdRecord.currentPoints + 5 ∧
      nearThresholdRecord.currentPoints + 5 <
        calculatePointsToNextLevel nearThresholdRecord.level +
          calculatePointsToNextLevel (nearThresholdRecord.level + 1) ∧
      nearThresholdRecord.currentPoints + 5 -
        calculatePointsToNextLevel nearThresholdRecord.level = 1 ∧
      addPointsLeveling 2 nearThresholdRecord 5 =
        some ⟨⟨1000000000000001, 0, 20000000000000100⟩, true⟩ := by
  decide

/-- C5, amended: when `currentPoints + pointsToAdd` is below `2 ^ 53` and the
award crosses exactly one threshold
(`T <= currentPoints + pointsToAdd < T + calculatePointsToNextLevel(level + 1)`
with `T = calculatePointsToNextLevel(level)`), the loop returns level + 1,
`currentPoints + pointsToAdd - T` and the threshold of level + 1, with one
level gained. -/
theorem addPoints_leveling_single_level (skill : SkillRecord) (pointsToAdd : Int) (k : Nat)
    (hvalid : skill.Valid) (hn : 0 ≤ pointsToAdd)
    (hsafe : skill.currentPoints + pointsToAdd < 2 ^ 53)
    (hlo : calculatePointsToNextLevel skill.level ≤ skill.currentPoints + pointsToAdd)
    (hhi : skill.currentPoints + pointsToAdd <
      calculatePointsToNextLevel skill.level + calculatePointsToNextLevel (skill.level + 1)) :
    ∃ r, addPointsLeveling (k + 2) skill pointsToAdd = some r ∧
      r.record.level = skill.level + 1 ∧
      r.record.currentPoints =
        skill.currentPoints + pointsToAdd - calculatePointsToNextLevel skill.level ∧
      r.record.pointsToNextLevel = calculatePointsToNextLevel (skill.level + 1) ∧
      r.record.level - skill.level = 1 ∧ r.leveledUp = true := by
  have hs := safeAward_of_valid skill pointsToAdd hvalid hn (le_of_lt hsafe)
  obtain ⟨hl, hp, _, _⟩ := hvalid
  refine ⟨⟨⟨skill.level + 1,
    skill.currentPoints + pointsToAdd - calculatePointsToNextLevel skill.level,
    calculatePointsToNextLevel (skill.level + 1)⟩, true⟩, ?_, rfl, rfl, rfl, by simp, rfl⟩
  rw [addPointsLeveling_some_iff, jsAdd_safe skill pointsToAdd hs]
  have hg : skill.pointsToNextLevel ≤ skill.currentPoints + pointsToAdd := by omega
  rw [levelLoop_iter _ _ hg, loopBody_exact _ hp hl hg hsafe]
  rw [levelLoop_exit _ _ (by
    show skill.currentPoints + pointsToAdd - skill.pointsToNextLevel <
      calculatePointsToNextLevel (skill.level + 1)
    omega)]
  rw [hp]

/-- Witness of C5 amended: level 1 with 95 points and an award of 10 gives
level 2 with 5 points and threshold 120. -/
theorem addPoints_leveling_single_level_witness :
    addPointsLeveling 2 ⟨1, 95, 100⟩ 10 = some ⟨⟨2, 5, 120⟩, true⟩ ∧
    ∃ r, addPointsLeveling (0 + 2) ⟨1, 95, 100⟩ 10 = some r ∧
      r.record.level = (1 : Int) + 1 ∧
      r.record.currentPoints = (95 : Int) + 10 - calculatePointsToNextLevel 1 ∧
      r.record.pointsToNextLevel = calculatePointsToNextLevel ((1 : Int) + 1) ∧
      r.record.level - 1 = 1 ∧ r.leveledUp = true :=
  ⟨by decide,
    addPoints_leveling_single_level ⟨1, 95, 100⟩ 10 0 (by decide) (by decide) (by decide)
      (by decide) (by decide)⟩

/-- C6, as stated, fails: the valid record `(10 ^ 15, 2 ^ 53, 20000000000000080)`
with an award of 1 stays below its threshold, but `2 ^ 53 + 1` is not a binary64
value: the loop returns `currentPoints = 2 ^ 53`, not
`currentPoints + pointsToAdd`. -/
theorem addPoints_leveling_no_threshold_rounds :
    roundingRecord.Valid ∧ (0 : Int) ≤ 1 ∧
      roundingRecord.currentPoints + 1 < roundingRecord.pointsToNextLevel ∧
      addPointsLeveling 1 roundingRecord 1 =
        some ⟨⟨1000000000000000, 9007199254740992, 20000000000000080⟩, false⟩ ∧
      roundingRecord.currentPoints + 1 = 9007199254740993 := by
  decide

/-- C6, amended: when `currentPoints + pointsToAdd` stays below the stored
threshold and is at most `2 ^ 53`, the loop leaves level and threshold as they
were, stores the sum in `currentPoints` and gains no level; an award of 0
returns such a record unchanged. -/
theorem addPoints_leveling_no_threshold (skill : SkillRecord) (pointsToAdd : Int) (k : Nat)
    (hvalid : skill.Valid) (hn : 0 ≤ pointsToAdd)
    (hlt : skill.currentPoints + pointsToAdd < skill.pointsToNextLevel)
    (hsafe : skill.currentPoints + pointsToAdd ≤ 2 ^ 53) :
    addPointsLeveling (k + 1) skill pointsToAdd =
        some { record := { level := skill.level
                           currentPoints := skill.currentPoints + pointsToAdd
                           pointsToNextLevel := skill.pointsToNextLevel }
               leveledUp := false } ∧
      addPointsLeveling (k + 1) skill 0 = some { record := skill, leveledUp := false } := by
  have hs := safeAward_of_valid skill pointsToAdd hvalid hn hsafe
  obtain ⟨_, _, hc0, hc⟩ := hvalid
  have hnum : roundToDouble skill.currentPoints = skill.currentPoints := by
    rw [two_pow_53] at hsafe
    exact roundToDouble_exact _ (by rw [two_pow_53]; omega) (by rw [two_pow_53]; omega)
  constructor
  · rw [addPointsLeveling_some_iff, jsAdd_safe skill pointsToAdd hs]
    exact levelLoop_exit _ _ hlt
  · exact leveling_zero_award skill k hnum hc

/-- Witness of C6 amended: level 1 with 90 points and an award of 5 stays at
level 1 with 95 points. -/
theorem addPoints_leveling_no_threshold_witness :
    addPointsLeveling (0 + 1) ⟨1, 90, 100⟩ 5 = some ⟨⟨1, (90 : Int) + 5, 100⟩, false⟩ ∧
      addPointsLeveling (0 + 1) ⟨1, 90, 100⟩ 0 = some ⟨⟨1, 90, 100⟩, false⟩ :=
  addPoints_leveling_no_threshold ⟨1, 90, 100⟩ 5 0 (by decide) (by decide) (by decide)
    (by decide)

/-! ## Monotonicity, conservation and termination -/

/-- C11, as stated, fails: the levels 7205759403792802 and 7205759403792803
are both at least 1 and have the same threshold, 144115188075856128, so the
function is not strictly increasing there. -/
theorem calculatePointsToNextLevel_not_strict :
    (1 : Int) ≤ 7205759403792802 ∧ (7205759403792802 : Int) < 7205759403792803 ∧
      calculatePointsToNextLevel 7205759403792802 = 144115188075856128 ∧
      calculatePointsToNextLevel 7205759403792803 = 144115188075856128 ∧
      ¬ calculatePointsToNextLevel 7205759403792802 <
        calculatePointsToNextLevel 7205759403792803 := by
  decide

/-- C11, amended: `calculatePointsToNextLevel` is non-decreasing on all
integers, never below 100, and strictly increasing on the levels from 1 up to
every level whose exact threshold `100 + (level - 1) * 20` is at most
`2 ^ 53`. -/
theorem calculatePointsToNextLevel_monotone (a b : Int) :
    (a ≤ b → calculatePointsToNextLevel a ≤ calculatePointsToNextLevel b) ∧
      (1 ≤ a → a < b → 100 + (b - 1) * 20 ≤ 2 ^ 53 →
        calculatePointsToNextLevel a < calculatePointsToNextLevel b) ∧
      100 ≤ calculatePointsToNextLevel a := by
  refine ⟨calculatePointsToNextLevel_mono a b, ?_, calculatePointsToNextLevel_ge a⟩
  intro h1 h hs
  rw [calculatePointsToNextLevel_exact b (by omega) hs,
    calculatePointsToNextLevel_exact a h1 (by rw [two_pow_53] at hs ⊢; omega)]
  omega

/-- Witness of C11 amended: the levels 1 and 2, with thresholds 100 and 120. -/
theorem calculatePointsToNextLevel_monotone_witness :
    (1 : Int) ≤ 2 ∧ (1 : Int) ≤ 1 ∧ (1 : Int) < 2 ∧ (100 + (2 - 1) * 20 : Int) ≤ 2 ^ 53 ∧
      calculatePointsToNextLevel 1 ≤ calculatePointsToNextLevel 2 ∧
      calculatePointsToNextLevel 1 < calculatePointsToNextLevel 2 ∧
      100 ≤ calculatePointsToNextLevel 1 :=
  ⟨by decide, by decide, by decide, by decide,
    (calculatePointsToNextLevel_monotone 1 2).1 (by decide),
    (calculatePointsToNextLevel_monotone 1 2).2.1 (by decide) (by decide) (by decide),
    (calculatePointsToNextLevel_monotone 1 2).2.2⟩

/-- C13, as stated, fails: the valid record `(10 ^ 15, 2 ^ 53,
20000000000000080)` with an award of 1 comes back at the same level with
`2 ^ 53` points: the old points plus the award are `2 ^ 53 + 1`, the new points
plus the empty sum of thresholds are `2 ^ 53`, and one point is lost. -/
theorem addPoints_leveling_loses_point :
    roundingRecord.Valid ∧ (0 : Int) ≤ 1 ∧
      ∃ r, addPointsLeveling 1 roundingRecord 1 = some r ∧
        r.record.level = roundingRecord.level ∧
        roundingRecord.currentPoints + 1 ≠ r.record.currentPoints +
          ∑ l ∈ Finset.Ico roundingRecord.level r.record.level,
            calculatePointsToNextLevel l := by
  refine ⟨by decide, by decide, ⟨roundingRecord, false⟩, by decide, rfl, ?_⟩
  simp only [Finset.Ico_self, Finset.sum_empty, add_zero]
  decide

/-- C13, amended: conservation of points below `2 ^ 53`. For a valid record and
a non-negative award with `currentPoints + pointsToAdd` below `2 ^ 53` the loop
returns, the new level `L'` is at least the old level `L`, and the old
`currentPoints` plus the award equal the new `currentPoints` plus the sum of
`calculatePointsToNextLevel(l)` for `l` from `L` to `L' - 1`. -/
theorem addPoints_leveling_conserves_points (skill : SkillRecord) (pointsToAdd : Int)
    (hvalid : skill.Valid) (hn : 0 ≤ pointsToAdd)
    (hsafe : skill.currentPoints + pointsToAdd < 2 ^ 53) :
    (∃ fuel r, addPointsLeveling fuel skill pointsToAdd = some r) ∧
      ∀ fuel r, addPointsLeveling fuel skill pointsToAdd = some r →
        skill.level ≤ r.record.level ∧
        skill.currentPoints + pointsToAdd = r.record.currentPoints +
          ∑ l ∈ Finset.Ico skill.level r.record.level, calculatePointsToNextLevel l := by
  constructor
  · obtain ⟨r, hr⟩ := addPointsLeveling_returns skill pointsToAdd 0
      (safeAward_of_valid skill pointsToAdd hvalid hn (le_of_lt hsafe))
    exact ⟨_, r, hr⟩
  · intro fuel r h
    obtain ⟨h1, _, h3⟩ := addPointsLeveling_safe fuel skill pointsToAdd r hvalid hn hsafe h
    exact ⟨h1, h3⟩

/-- Witness of C13 amended: the fresh record with an award of 250
(250 = 30 + 100 + 120). -/
theorem addPoints_leveling_conserves_points_witness :
    initialSkillState.Valid ∧ (0 : Int) ≤ 250 ∧
      initialSkillState.currentPoints + 250 < 2 ^ 53 ∧
      ((∃ fuel r, addPointsLeveling fuel initialSkillState 250 = some r) ∧
        ∀ fuel r, addPointsLeveling fuel initialSkillState 250 = some r →
          initialSkillState.level ≤ r.record.level ∧
          initialSkillState.currentPoints + 250 = r.record.currentPoints +
            ∑ l ∈ Finset.Ico initialSkillState.level r.record.level,
              calculatePointsToNextLevel l) :=
  ⟨by decide, by decide, by decide,
    addPoints_leveling_conserves_points initialSkillState 250 (by decide) (by decide)
      (by decide)⟩

set_option maxRecDepth 8000 in
/-- From the loop state reached after one iteration on `saturatedRecord` with
an award of `2 ^ 120` the guard holds and the body changes nothing: the points
stay `2 ^ 120` (the threshold is below half the spacing of the binary64 values
there) and the level stays `2 ^ 53` (`2 ^ 53 + 1` rounds back). -/
lemma saturated_fixpoint :
    loopBody (loopBody saturatedStart) = loopBody saturatedStart ∧
      (loopBody saturatedStart).newPointsToNextLevel ≤ (loopBody saturatedStart).currentPoints ∧
      saturatedStart.newPointsToNextLevel ≤ saturatedStart.currentPoints ∧
      (loopBody saturatedStart).currentPoints = 2 ^ 120 ∧
      (loopBody saturatedStart).newLevel = 2 ^ 53 := by
  decide

/-- A state the body maps to itself while the guard holds is never left. -/
lemma levelLoop_stuck (v : LoopVars) (hfix : loopBody v = v)
    (hg : v.newPointsToNextLevel ≤ v.currentPoints) : ∀ fuel, levelLoop fuel v = none := by
  intro fuel
  induction fuel with
  | zero => rfl
  | succ n ih => rw [levelLoop_iter _ _ hg, hfix]; exact ih

/-- Far above any threshold the subtraction is absorbed: for a threshold
between 100 and `2 ^ 58`, `2 ^ 120 - T` rounds back to `2 ^ 120`, the spacing of
the binary64 values just below `2 ^ 120` being `2 ^ 67`. -/
lemma jsSub_absorbed (T : Int) (h1 : 100 ≤ T) (h2 : T ≤ 2 ^ 58) :
    jsSub (2 ^ 120) T = 2 ^ 120 := by
  have h58 : (2 : Int) ^ 58 = 288230376151711744 := by norm_num
  have h120 : (2 : Int) ^ 120 = 1329227995784915872903807060280344576 := by norm_num
  rw [h58] at h2
  obtain ⟨t, rfl⟩ : ∃ t : Nat, T = (t : Int) := ⟨T.toNat, by omega⟩
  have ht1 : 100 ≤ t := by omega
  have ht2 : t ≤ 288230376151711744 := by omega
  have hx : ((2 : Int) ^ 120 - (t : Int)).toNat = 1329227995784915872903807060280344576 - t := by
    rw [h120]; omega
  simp only [jsSub]
  rw [roundToDouble_of_nonneg _ (by rw [h120]; omega), hx]
  obtain ⟨e, hq, hu, hl⟩ := quantum_spec (1329227995784915872903807060280344576 - t)
  have he : e = 67 := by
    rcases Nat.lt_trichotomy e 67 with hlt | heq | hgt
    · exfalso
      have hp : 2 ^ (e + 53) ≤ 2 ^ 119 := Nat.pow_le_pow_right (by norm_num) (by omega)
      have h119 : (2 : Nat) ^ 119 = 664613997892457936451903530140172288 := by norm_num
      omega
    · exact heq
    · exfalso
      have hp : 2 ^ 120 ≤ 2 ^ (e + 52) := Nat.pow_le_pow_right (by norm_num) (by omega)
      have h120' : (2 : Nat) ^ 120 = 1329227995784915872903807060280344576 := by norm_num
      rcases hl with h0 | h0
      · omega
      · omega
  subst he
  have h67 : (2 : Nat) ^ 67 = 147573952589676412928 := by norm_num
  unfold roundNat
  rw [hq, h67, h120]
  unfold roundTo
  have hdiv : (1329227995784915872903807060280344576 - t) / 147573952589676412928 =
      9007199254740991 := by omega
  have hmod : (1329227995784915872903807060280344576 - t) % 147573952589676412928 =
      147573952589676412928 - t := by omega
  rw [hdiv, hmod]
  have c1 : ¬ 2 * (147573952589676412928 - t) < 147573952589676412928 := by omega
  have c2 : 147573952589676412928 < 2 * (147573952589676412928 - t) := by omega
  rw [if_neg c1, if_pos c2]
  norm_num

/-- The loop states in which `2 ^ 120` points face a threshold of at most
`2 ^ 58` at a level of at most `2 ^ 53`. -/
lemma absorbed_step (v : LoopVars) (hc : v.currentPoints = 2 ^ 120)
    (hl1 : 1 ≤ v.newLevel) (hl2 : v.newLevel ≤ 2 ^ 53)
    (ht1 : 100 ≤ v.newPointsToNextLevel) (ht2 : v.newPointsToNextLevel ≤ 2 ^ 58) :
    v.newPointsToNextLevel ≤ v.currentPoints ∧
      (loopBody v).currentPoints = 2 ^ 120 ∧
      1 ≤ (loopBody v).newLevel ∧ (loopBody v).newLevel ≤ 2 ^ 53 ∧
      100 ≤ (loopBody v).newPointsToNextLevel ∧
      (loopBody v).newPointsToNextLevel ≤ 2 ^ 58 := by
  have h58 : (2 : Int) ^ 58 = 288230376151711744 := by norm_num
  have h120 : (2 : Int) ^ 120 = 1329227995784915872903807060280344576 := by norm_num
  have hlev1 : 1 ≤ jsAdd v.newLevel 1 :=
    roundToDouble_ge 1 _ (by norm_num) (by norm_num) (by omega)
  have hlev2 : jsAdd v.newLevel 1 ≤ 2 ^ 53 := by
    rcases lt_or_eq_of_le hl2 with hlt | heq
    · exact roundToDouble_le (2 ^ 53) _ (by norm_num) (le_refl _)
        (by rw [two_pow_53] at hlt ⊢; omega)
    · rw [heq]; decide
  refine ⟨by rw [hc, h120]; rw [h58] at ht2; omega, ?_, hlev1, hlev2,
    calculatePointsToNextLevel_ge _, ?_⟩
  · simp only [loopBody]
    rw [hc]
    exact jsSub_absorbed _ ht1 ht2
  · simp only [loopBody]
    have hm := calculatePointsToNextLevel_mono _ _ hlev2
    have hv : calculatePointsToNextLevel (2 ^ 53) = 180143985094819904 := by decide
    rw [hv] at hm
    rw [h58]
    omega

/-- From such a state the loop never returns. -/
lemma levelLoop_absorbed : ∀ (fuel : Nat) (v : LoopVars), v.currentPoints = 2 ^ 120 →
    1 ≤ v.newLevel → v.newLevel ≤ 2 ^ 53 →
    100 ≤ v.newPointsToNextLevel → v.newPointsToNextLevel ≤ 2 ^ 58 →
    levelLoop fuel v = none := by
  intro fuel
  induction fuel with
  | zero => intro v _ _ _ _ _; rfl
  | succ n ih =>
    intro v hc hl1 hl2 ht1 ht2
    obtain ⟨hg, a, b, c, d, e⟩ := absorbed_step v hc hl1 hl2 ht1 ht2
    rw [levelLoop_iter _ _ hg]
    exact ih _ a b c d e

set_option maxRecDepth 8000 in
/-- The sum `0 + 2 ^ 120` is a binary64 value. -/
lemma jsAdd_zero_big : jsAdd initialSkillState.currentPoints (2 ^ 120) = 2 ^ 120 := by
  decide

/-- C14, as stated, fails: for the fresh valid record `(1, 0, 100)` and the
award `2 ^ 120` the loop never returns, whatever the fuel: every subtraction of
a threshold leaves `2 ^ 120` points and the level stops growing at `2 ^ 53`.
The same holds for the valid record `(2 ^ 53, 0, 180143985094819904)`, where
the body changes neither points nor level from the first iteration on. -/
theorem addPoints_leveling_never_returns :
    initialSkillState.Valid ∧ (0 : Int) ≤ 2 ^ 120 ∧
      (¬ ∃ fuel r, addPointsLeveling fuel initialSkillState (2 ^ 120) = some r) ∧
      saturatedRecord.Valid ∧
      ¬ ∃ fuel r, addPointsLeveling fuel saturatedRecord (2 ^ 120) = some r := by
  refine ⟨by decide, by norm_num, ?_, by decide, ?_⟩
  · rintro ⟨fuel, r, h⟩
    rw [addPointsLeveling_some_iff, jsAdd_zero_big] at h
    have hnone := levelLoop_absorbed fuel
      { currentPoints := 2 ^ 120
        newLevel := initialSkillState.level
        newPointsToNextLevel := initialSkillState.pointsToNextLevel
        leveledUp := false }
      rfl (by norm_num [initialSkillState]) (by norm_num [initialSkillState])
      (by norm_num [initialSkillState]) (by norm_num [initialSkillState])
    rw [hnone] at h
    exact Option.noConfusion h
  · rintro ⟨fuel, r, h⟩
    rw [addPointsLeveling_some_iff] at h
    have h' : levelLoop fuel saturatedStart = some
        { currentPoints := r.record.currentPoints
          newLevel := r.record.level
          newPointsToNextLevel := r.record.pointsToNextLevel
          leveledUp := r.leveledUp } := h
    obtain ⟨hfix, hg1, hg0, _, _⟩ := saturated_fixpoint
    cases fuel with
    | zero => simp [levelLoop] at h'
    | succ n =>
      rw [levelLoop_iter n saturatedStart hg0, levelLoop_stuck _ hfix hg1 n] at h'
      exact Option.noConfusion h'

/-- C14, amended: the leveling loop of `addPoints` terminates for every integer
level, `currentPoints`, stored `pointsToNextLevel` and award, valid or not,
whose sum `currentPoints + pointsToAdd` and first remainder
`currentPoints + pointsToAdd - pointsToNextLevel` are at most `2 ^ 53` in
magnitude: it returns within
`(currentPoints + pointsToAdd - pointsToNextLevel) + 2` guard evaluations,
because every threshold the body stores is at least 100. A stored threshold of
0 and a negative threshold with a negative award are two such runs. -/
theorem addPoints_leveling_terminates (level currentPoints pointsToNextLevel pointsToAdd : Int)
    (k : Nat)
    (hsafe : SafeAward
      { level := level, currentPoints := currentPoints
        pointsToNextLevel := pointsToNextLevel } pointsToAdd) :
    (∃ r, addPointsLeveling
        ((currentPoints + pointsToAdd - pointsToNextLevel).toNat + 2 + k)
        { level := level, currentPoints := currentPoints
          pointsToNextLevel := pointsToNextLevel } pointsToAdd = some r) ∧
      (∀ v : LoopVars, 100 ≤ (loopBody v).newPointsToNextLevel) ∧
      addPointsLeveling 2 ⟨1, 0, 0⟩ 0 = some ⟨⟨2, 0, 120⟩, true⟩ ∧
      addPointsLeveling 2 ⟨1, 0, -50⟩ (-10) = some ⟨⟨2, 40, 120⟩, true⟩ :=
  ⟨addPointsLeveling_returns _ pointsToAdd k hsafe,
    fun _ => calculatePointsToNextLevel_ge _, by decide, by decide⟩

/-- Witness of C14 amended: a record with a negative stored threshold and a
negative award. -/
theorem addPoints_leveling_terminates_witness :
    SafeAward ⟨1, 0, -50⟩ (-10) ∧
      ∃ r, addPointsLeveling (((0 : Int) + -10 - -50).toNat + 2 + 0) ⟨1, 0, -50⟩ (-10) =
        some r :=
  ⟨by decide, (addPoints_leveling_terminates 1 0 (-50) (-10) 0 (by decide)).1⟩

/-! ## Lemmas on `addPoints` -/

lemma levelUpText_ne_pointsText (a b : SkillName) (l n : Int) :
    levelUpText a l ≠ pointsText n b := by
  intro h
  have h' := congrArg (fun t => t.data.head?) h
  simp only [levelUpText, pointsText, String.data_append] at h'
  revert h'
  simp

/-- What `addPoints` does once its guard lets the call through: the fields of
the state it returns, in terms of the result `r` of the leveling part. -/
lemma addPoints_ready (fuel : Nat) (s s' : AppState) (skillName : SkillName)
    (pointsToAdd : Int) (outcome : WriteOutcome) (hdb : s.db ≠ none) (huid : s.userId ≠ "")
    (h : addPoints fuel s skillName pointsToAdd outcome = some s') :
    ∃ r, addPointsLeveling fuel (s.skills skillName) pointsToAdd = some r ∧
      s'.skills = Function.update s.skills skillName r.record ∧
      s'.loading = false ∧
      s'.writes = s.writes ++ [{ userId := s.userId
                                 payload := addPointsPayload s.skills skillName r.record
                                 merge := true }] ∧
      (outcome = .ok → s'.messageType = "success" ∧
        s'.message = if r.leveledUp then levelUpText skillName r.record.level
                     else pointsText pointsToAdd skillName) ∧
      (∀ detail, outcome = .failed detail → s'.messageType = "error" ∧
        s'.message = updateErrorText skillName detail) := by
  have hg : (s.db.isNone || s.userId == "") = false := by
    cases hd : s.db with
    | none => exact absurd hd hdb
    | some u => simp [huid]
  unfold addPoints at h
  rw [hg] at h
  simp only [Bool.false_eq_true, if_false] at h
  cases hr : addPointsLeveling fuel (s.skills skillName) pointsToAdd with
  | none => rw [hr] at h; simp at h
  | some r =>
    rw [hr] at h
    refine ⟨r, rfl, ?_⟩
    cases outcome with
    | ok =>
      by_cases hl : r.leveledUp = true
      · simp only [hl, if_true, showMessage, Option.some.injEq] at h
        subst h
        simp [hl]
      · simp only [hl, if_false, showMessage, Option.some.injEq] at h
        subst h
        simp [hl]
    | failed d =>
      simp only [showMessage, Option.some.injEq] at h
      subst h
      simp

/-- Past its guard `addPoints` returns on every safe award. -/
lemma addPoints_returns (s : AppState) (skillName : SkillName) (pointsToAdd : Int)
    (outcome : WriteOutcome) (h : SafeAward (s.skills skillName) pointsToAdd) :
    ∃ fuel s', addPoints fuel s skillName pointsToAdd outcome = some s' := by
  obtain ⟨r, hr⟩ := addPointsLeveling_returns (s.skills skillName) pointsToAdd 0 h
  refine ⟨((s.skills skillName).currentPoints + pointsToAdd -
    (s.skills skillName).pointsToNextLevel).toNat + 2 + 0, ?_⟩
  unfold addPoints
  split
  · exact ⟨_, rfl⟩
  · rw [hr]
    exact ⟨_, rfl⟩

/-- The guard of `addPoints` (App.js 123-126): without a store handle, or with
an empty `userId`, the call only shows the error notification. -/
lemma addPoints_rejects (fuel : Nat) (s : AppState) (skillName : SkillName)
    (pointsToAdd : Int) (outcome : WriteOutcome) (h : s.db = none ∨ s.userId = "") :
    addPoints fuel s skillName pointsToAdd outcome = some (showMessage s notReadyText "error") ∧
      (showMessage s notReadyText "error").skills = s.skills ∧
      (showMessage s notReadyText "error").loading = s.loading ∧
      (showMessage s notReadyText "error").writes = s.writes ∧
      (showMessage s notReadyText "error").messageType = "error" := by
  refine ⟨?_, rfl, rfl, rfl, rfl⟩
  have hg : (s.db.isNone || s.userId == "") = true := by
    rcases h with h | h
    · simp [h]
    · simp [h]
  unfold addPoints
  rw [hg]
  simp

/-- The write of `addPoints(A, n)` in general: it carries the newly computed
record under `A` and the in-memory copy under each other skill, so after the
merge the remote record of another skill is that in-memory copy. -/
lemma addPoints_write_payload (s : AppState) (A : SkillName) (pointsToAdd : Int)
    (doc : Option SkillsField) (hdb : s.db ≠ none) (huid : s.userId ≠ "") (fuel : Nat)
    (s' : AppState) (h : addPoints fuel s A pointsToAdd .ok = some s') :
    ∃ c d', s'.writes = s.writes ++ [c] ∧ c.merge = true ∧
      applySetDoc doc c = some d' ∧
      d' A = some (s'.skills A) ∧
      (∀ B, B ≠ A → d' B = some (s.skills B)) := by
  obtain ⟨r, _, hs, _, hw, _, _⟩ := addPoints_ready fuel s s' A pointsToAdd .ok hdb huid h
  have hB : ∀ B, B ≠ A →
      (match addPointsPayload s.skills A r.record B with
        | some x => some x
        | none => match doc with
          | some d => d B
          | none => none) = some (s.skills B) := by
    intro B hne
    simp [addPointsPayload, Function.update_noteq hne]
  refine ⟨_, _, hw, rfl, ?_, ?_, hB⟩
  · simp only [applySetDoc, if_true]
  · simp [addPointsPayload, hs]

/-! ## Claims on the sync layer -/

/-- C3 at the failing input: the client `signedInState` holds the default record
for `Aerobico` while the remote document has `Aerobico` at level 5; the merge
write of `addPoints('Forca', 10)` carries all four in-memory records and puts
the stale copy of `Aerobico` into the remote document. -/
theorem addPoints_merge_isolation_fails :
    ∃ s' c d', addPoints 1 signedInState .Forca 10 .ok = some s' ∧
      s'.writes = [c] ∧ c.merge = true ∧
      applySetDoc (some advancedRemote) c = some d' ∧
      advancedRemote .Aerobico = some ⟨5, 10, 180⟩ ∧
      d' .Aerobico = some ⟨1, 0, 100⟩ ∧
      d' .Aerobico ≠ advancedRemote .Aerobico :=
  ⟨_, _, _, rfl, rfl, rfl, rfl, rfl, rfl, by decide⟩

/-- A notification shown while no callback is pending stays in the slot at
every time before its own 3000 ms have passed and is cleared from then on. -/
lemma showMessage_alone (s : AppState) (text type : String) (t : Nat)
    (hidle : s.timers = []) :
    (t < s.now + 3000 → (advanceTo (showMessage s text type) t).message = text) ∧
      (s.now + 3000 ≤ t → (advanceTo (showMessage s text type) t).message = "") := by
  constructor
  · intro h
    have : ¬ s.now + 3000 ≤ t := by omega
    simp [advanceTo, showMessage, hidle, this]
  · intro h
    simp [advanceTo, showMessage, hidle, h]

/-- C7 at the failing input: `showMessage('A')` at 0 ms and `showMessage('B')`
at 1000 ms leave two pending callbacks, due at 3000 and 4000 ms. `B` is still
shown at 2999 ms and the callback of `A` clears it at 3000 ms, one second
before its own callback is due. -/
theorem showMessage_earlier_timer_clears_newer :
    twoMessages.message = "B" ∧ twoMessages.now = 1000 ∧
      twoMessages.timers = [3000, 4000] ∧
      (advanceTo twoMessages 2999).message = "B" ∧
      (advanceTo twoMessages 3000).message = "" ∧
      (advanceTo twoMessages 3000).messageVisible = false ∧
      3000 < twoMessages.now + 3000 := by
  decide

/-- C8 at the failing input: with the store handle set and `userId` still the
placeholder `'carregando...'`, `addPoints('Forca', 10)` passes the guard: it
shows the success notification, changes the local record of `Forca` and issues
a merge write for the user id `'carregando...'`. -/
theorem addPoints_accepts_placeholder_user :
    storeCreatedState.db = some () ∧ storeCreatedState.userId = "carregando..." ∧
      ∃ s', addPoints 1 storeCreatedState .Forca 10 .ok = some s' ∧
        s'.messageType = "success" ∧ s'.message = "+10 pontos para Forca!" ∧
        storeCreatedState.skills .Forca = ⟨1, 0, 100⟩ ∧
        s'.skills .Forca = ⟨1, 10, 100⟩ ∧
        storeCreatedState.writes.length = 0 ∧
        s'.writes.map (fun c => (c.userId, c.merge)) = [("carregando...", true)] :=
  ⟨rfl, rfl, _, rfl, by decide, by decide, by decide, by decide, by decide, by decide⟩

/-- C9, as stated, fails: at level `2 ^ 53` the increment `newLevel++` rounds
back to `2 ^ 53`. The valid record `(2 ^ 53, 0, 180143985094819904)` awarded
its threshold crosses it, so `leveledUp` is set and the level-up text is shown,
while the new level equals the old one: no level was gained. -/
theorem addPoints_level_up_text_without_gain :
    saturatedState.db ≠ none ∧ saturatedState.userId ≠ "" ∧
      (saturatedState.skills .Forca).Valid ∧ (0 : Int) ≤ 180143985094819904 ∧
      ∃ s', addPoints 2 saturatedState .Forca 180143985094819904 .ok = some s' ∧
        s'.message =
          "Parabéns! Sua habilidade de Forca subiu para o Nível 9007199254740992!" ∧
        (s'.skills .Forca).level = 9007199254740992 ∧
        (saturatedState.skills .Forca).level = 9007199254740992 ∧
        ¬ (saturatedState.skills .Forca).level < (s'.skills .Forca).level :=
  ⟨by decide, by decide, by decide, by decide, _, rfl, by decide, by decide, by decide,
    by decide⟩

/-- C9, amended: after a successful write of an award to a valid record with
`currentPoints + pointsToAdd` below `2 ^ 53`, the notification has severity
`success`; it is the text `Parabéns! Sua habilidade de <skill> subiu para o
Nível <new level>!` exactly when the level grew, and the text
`+<pointsToAdd> pontos para <skill>!` exactly when it did not; an award of 0
gives the `+0` text. The skill is named by its key. -/
theorem addPoints_message_selection (s : AppState) (skillName : SkillName)
    (pointsToAdd : Int) (hdb : s.db ≠ none) (huid : s.userId ≠ "")
    (hvalid : (s.skills skillName).Valid) (hn : 0 ≤ pointsToAdd)
    (hsafe : (s.skills skillName).currentPoints + pointsToAdd < 2 ^ 53) :
    (∃ fuel s', addPoints fuel s skillName pointsToAdd .ok = some s') ∧
      (∀ fuel s', addPoints fuel s skillName pointsToAdd .ok = some s' →
        s'.messageType = "success" ∧
        (s'.message = "Parabéns! Sua habilidade de " ++ skillName.toString ++
            " subiu para o Nível " ++ toString (s'.skills skillName).level ++ "!" ↔
          (s.skills skillName).level < (s'.skills skillName).level) ∧
        (s'.message = "+" ++ toString pointsToAdd ++ " pontos para " ++
            skillName.toString ++ "!" ↔
          ¬ (s.skills skillName).level < (s'.skills skillName).level) ∧
        (pointsToAdd = 0 →
          s'.message = "+0 pontos para " ++ skillName.toString ++ "!")) ∧
      SkillName.Forca.toString = "Forca" ∧ SkillName.Aerobico.toString = "Aerobico" ∧
      SkillName.Inteligencia.toString = "Inteligencia" ∧
      SkillName.Companheirismo.toString = "Companheirismo" := by
  have hsa := safeAward_of_valid _ pointsToAdd hvalid hn (le_of_lt hsafe)
  refine ⟨addPoints_returns s skillName pointsToAdd .ok hsa, ?_, rfl, rfl, rfl, rfl⟩
  intro fuel s' h
  obtain ⟨r, hr, hs, _, _, hok, _⟩ :=
    addPoints_ready fuel s s' skillName pointsToAdd .ok hdb huid h
  obtain ⟨htype, hmsg⟩ := hok rfl
  obtain ⟨_, hflag, _⟩ := addPointsLeveling_safe _ _ _ _ hvalid hn hsafe hr
  have hlevel : (s'.skills skillName).level = r.record.level := by
    rw [hs, Function.update_same]
  have hup : "Parabéns! Sua habilidade de " ++ skillName.toString ++
      " subiu para o Nível " ++ toString r.record.level ++ "!" =
      levelUpText skillName r.record.level := rfl
  have hplus : "+" ++ toString pointsToAdd ++ " pontos para " ++ skillName.toString ++ "!" =
      pointsText pointsToAdd skillName := rfl
  rw [hlevel, hup, hplus]
  refine ⟨htype, ?_, ?_, ?_⟩
  · by_cases hl : r.leveledUp = true
    · rw [hmsg, if_pos hl]
      exact ⟨fun _ => hflag.mp hl, fun _ => rfl⟩
    · rw [hmsg, if_neg hl]
      constructor
      · intro e; exact absurd e.symm (levelUpText_ne_pointsText _ _ _ _)
      · intro e; exact absurd (hflag.mpr e) hl
  · by_cases hl : r.leveledUp = true
    · rw [hmsg, if_pos hl]
      constructor
      · intro e; exact absurd e (levelUpText_ne_pointsText _ _ _ _)
      · intro e; exact absurd (hflag.mp hl) e
    · rw [hmsg, if_neg hl]
      exact ⟨fun _ e => hl (hflag.mpr e), fun _ => rfl⟩
  · intro h0
    subst h0
    obtain ⟨_, _, hc, hlt⟩ := hvalid
    have hnum : roundToDouble (s.skills skillName).currentPoints =
        (s.skills skillName).currentPoints := by
      rw [two_pow_53] at hsafe
      exact roundToDouble_exact _ (by rw [two_pow_53]; omega) (by rw [two_pow_53]; omega)
    have hzero := leveling_zero_award (s.skills skillName) 0 hnum hlt
    have hrun := addPointsLeveling_det _ _ _ _ _ _ hr hzero
    rw [hmsg, hrun]
    rfl

/-- Witness of C9 amended, both branches on the signed-in client: an award of
10 to `Forca` keeps level 1 and shows the `+10` text, an award of 120 reaches
level 2 and shows the level-up text. -/
theorem addPoints_message_selection_witness :
    signedInState.db ≠ none ∧ signedInState.userId ≠ "" ∧
      (signedInState.skills .Forca).Valid ∧ (0 : Int) ≤ 10 ∧ (0 : Int) ≤ 120 ∧
      (signedInState.skills .Forca).currentPoints + 10 < 2 ^ 53 ∧
      (signedInState.skills .Forca).currentPoints + 120 < 2 ^ 53 ∧
      (∃ s', addPoints 1 signedInState .Forca 10 .ok = some s' ∧
        (s'.skills .Forca).level = 1 ∧
        s'.message = "+" ++ toString (10 : Int) ++ " pontos para " ++
          SkillName.Forca.toString ++ "!" ∧
        s'.message = "+10 pontos para Forca!") ∧
      (∃ s', addPoints 2 signedInState .Forca 120 .ok = some s' ∧
        (s'.skills .Forca).level = 2 ∧
        s'.message = "Parabéns! Sua habilidade de " ++ SkillName.Forca.toString ++
          " subiu para o Nível " ++ toString (s'.skills .Forca).level ++ "!" ∧
        s'.message = "Parabéns! Sua habilidade de Forca subiu para o Nível 2!") :=
  ⟨by decide, by decide, by decide, by decide, by decide, by decide, by decide,
    ⟨_, rfl, by decide,
      (((addPoints_message_selection signedInState .Forca 10 (by decide) (by decide)
        (by decide) (by decide) (by decide)).2.1 1 _ rfl).2.2.1).mpr (by decide),
      by decide⟩,
    ⟨_, rfl, by decide,
      (((addPoints_message_selection signedInState .Forca 120 (by decide) (by decide)
        (by decide) (by decide) (by decide)).2.1 2 _ rfl).2.1).mpr (by decide),
      by decide⟩⟩

/-- C10: when the merge write of `addPoints` fails, the awarded skill's local
record is the newly computed one and the other local records are untouched,
the notification has severity `error` and reads
`Erro ao atualizar <skill>: <detail>`, and `loading` is false; `loading` is
false after a successful write as well. The call returns on every safe
award. -/
theorem addPoints_write_failure (s : AppState) (skillName : SkillName) (pointsToAdd : Int)
    (detail : String) (hdb : s.db ≠ none) (huid : s.userId ≠ "") :
    ((SafeAward (s.skills skillName) pointsToAdd →
        ∃ fuel s', addPoints fuel s skillName pointsToAdd (.failed detail) = some s') ∧
      ∀ fuel s', addPoints fuel s skillName pointsToAdd (.failed detail) = some s' →
        (∃ r, addPointsLeveling fuel (s.skills skillName) pointsToAdd = some r ∧
          s'.skills skillName = r.record) ∧
        (∀ k, k ≠ skillName → s'.skills k = s.skills k) ∧
        s'.messageType = "error" ∧
        s'.message = "Erro ao atualizar " ++ skillName.toString ++ ": " ++ detail ∧
        s'.loading = false) ∧
    ((SafeAward (s.skills skillName) pointsToAdd →
        ∃ fuel s', addPoints fuel s skillName pointsToAdd .ok = some s') ∧
      ∀ fuel s', addPoints fuel s skillName pointsToAdd .ok = some s' →
        s'.loading = false) := by
  refine ⟨⟨addPoints_returns s skillName pointsToAdd _, ?_⟩,
    ⟨addPoints_returns s skillName pointsToAdd _, ?_⟩⟩
  · intro fuel s' h
    obtain ⟨r, hr, hs, hload, _, _, hfail⟩ :=
      addPoints_ready fuel s s' skillName pointsToAdd _ hdb huid h
    obtain ⟨htype, hmsg⟩ := hfail detail rfl
    refine ⟨⟨r, hr, by rw [hs, Function.update_same]⟩, ?_, htype, hmsg, hload⟩
    intro k hk
    rw [hs, Function.update_noteq hk]
  · intro fuel s' h
    obtain ⟨r, _, _, hload, _⟩ :=
      addPoints_ready fuel s s' skillName pointsToAdd _ hdb huid h
    exact hload

/-- Witness of C10: the signed-in client awards 120 points to `Forca` and the
write is rejected with the detail `offline`. -/
theorem addPoints_write_failure_witness :
    signedInState.db ≠ none ∧ signedInState.userId ≠ "" ∧
    SafeAward (signedInState.skills .Forca) 120 ∧
    (((SafeAward (signedInState.skills .Forca) 120 →
        ∃ fuel s', addPoints fuel signedInState .Forca 120 (.failed "offline") = some s') ∧
      ∀ fuel s', addPoints fuel signedInState .Forca 120 (.failed "offline") = some s' →
        (∃ r, addPointsLeveling fuel (signedInState.skills .Forca) 120 = some r ∧
          s'.skills .Forca = r.record) ∧
        (∀ k, k ≠ SkillName.Forca → s'.skills k = signedInState.skills k) ∧
        s'.messageType = "error" ∧
        s'.message = "Erro ao atualizar " ++ SkillName.Forca.toString ++ ": " ++ "offline" ∧
        s'.loading = false) ∧
    ((SafeAward (signedInState.skills .Forca) 120 →
        ∃ fuel s', addPoints fuel signedInState .Forca 120 .ok = some s') ∧
      ∀ fuel s', addPoints fuel signedInState .Forca 120 .ok = some s' →
        s'.loading = false)) :=
  ⟨by decide, by decide, by decide,
    addPoints_write_failure signedInState .Forca 120 "offline" (by decide) (by decide)⟩

/-! ## Claims on session bootstrap and title display -/

/-- C12, as stated, fails: a client that awarded 10 points to `Forca` before the
first snapshot holds `Forca` at `(1, 10, 100)`; the change of `skills` re-runs
the effect (App.js 120), and the listener that run registers captures the
awarded set. When its callback observes that the document of user `u1` does
not exist, the document it writes has `(1, 10, 100)` under `Forca`, not the
seeded record. -/
theorem onSnapshot_writes_captured_skills :
    ∃ s c d, awardedBeforeSnapshot = some s ∧
      (onSnapshotCallback s s.skills "u1" none).writes = s.writes ++ [c] ∧
      c.userId = "u1" ∧ c.merge = false ∧
      applySetDoc none c = some d ∧
      d .Forca = some ⟨1, 10, 100⟩ ∧
      d .Forca ≠ some initialSkillState :=
  ⟨_, _, _, rfl, rfl, rfl, rfl, rfl, rfl, by decide⟩

/-- C12, amended: when the callback observes that the remote document does not
exist, the document it writes is the skill set captured by the effect run that
registered the listener, whatever the in-memory skill set is at that moment:
the four skills at level 1 with 0 points and threshold 100 for a listener
registered while the in-memory set was the initial one; local state keeps its
set. When the document exists, local state is replaced wholesale by the remote
skills and nothing is written. -/
theorem onSnapshot_bootstrap (s : AppState) (capturedSkills : Skills) (currentUserId : String)
    (fetchedSkills : Skills) :
    (∃ c, (onSnapshotCallback s capturedSkills currentUserId none).writes = s.writes ++ [c] ∧
        c.userId = currentUserId ∧ c.merge = false ∧
        (∀ doc, applySetDoc doc c = some (fun k => some (capturedSkills k))) ∧
        (capturedSkills = (fun _ => initialSkillState) →
          ∀ k, c.payload k = some { level := 1, currentPoints := 0, pointsToNextLevel := 100 })) ∧
      (onSnapshotCallback s capturedSkills currentUserId none).skills = s.skills ∧
      (onSnapshotCallback s capturedSkills currentUserId (some fetchedSkills)).skills =
        fetchedSkills ∧
      (onSnapshotCallback s capturedSkills currentUserId (some fetchedSkills)).writes =
        s.writes := by
  refine ⟨⟨_, rfl, rfl, rfl, ?_, ?_⟩, rfl, rfl, rfl⟩
  · intro doc
    simp [applySetDoc]
  · intro h k
    simp only [h]
    rfl

/-- Witness of C12 amended: the listener registered while the set was the
initial one fires on the client `saturatedState`, whose in-memory record of
`Forca` is not the seeded one, and writes the seeded records. -/
theorem onSnapshot_bootstrap_witness :
    (fun _ => initialSkillState : Skills) = (fun _ => initialSkillState) ∧
      saturatedState.skills .Forca ≠ initialSkillState ∧
      ∃ c, (onSnapshotCallback saturatedState (fun _ => initialSkillState) "u1" none).writes =
          saturatedState.writes ++ [c] ∧
        ∀ k, c.payload k = some { level := 1, currentPoints := 0, pointsToNextLevel := 100 } := by
  obtain ⟨⟨c, hw, _, _, _, hseed⟩, _⟩ :=
    onSnapshot_bootstrap saturatedState (fun _ => initialSkillState) "u1"
      (fun _ => initialSkillState)
  exact ⟨rfl, by decide, c, hw, hseed rfl⟩

/-- The title shown for a displayed level between 1 and 10 is the table entry
before it, which is not empty and is not the eleventh entry. -/
lemma title_of_displayed (d : Int) (h1 : 1 ≤ d) (h10 : d ≤ 10) :
    ∃ t, levelTitlesAt (d - 1) = some t ∧ t ≠ "" ∧ t ≠ "Monarca das Sombras" ∧
      (if t = "" then levelFallbackText d else t) = t ∧ (d = 10 → t = "Lendário") := by
  interval_cases d <;> exact ⟨_, rfl, by decide, by decide, by decide, by decide⟩

/-- C15: for every level of at least 1 the displayed level is `min(level, 10)`
and the title is the entry of `levelTitles` at index `min(level, 10) - 1`, which
is inside the table and not empty, so the fallback is not used; the eleventh
entry, `Monarca das Sombras`, is the title of no level, and every level above
10 is displayed as level 10. -/
theorem title_display (level : Int) (h : 1 ≤ level) :
    displayLevel level = min level 10 ∧
      levelTitlesAt (min level 10 - 1) = some (title level) ∧
      title level ≠ "" ∧
      title level ≠ "Monarca das Sombras" ∧
      levelTitlesAt 10 = some "Monarca das Sombras" ∧
      (10 < level → displayLevel level = 10 ∧ title level = "Lendário") := by
  have hd : displayLevel level = min level 10 := by
    unfold displayLevel
    have : ((levelTitles.length : Int) - 1) = 10 := by decide
    rw [this]
  obtain ⟨t, ht, hne, hmon, hif, hten⟩ :=
    title_of_displayed (min level 10) (by omega) (by omega)
  have htitle : title level = t := by
    unfold title
    rw [hd, ht]
    exact hif
  rw [htitle]
  refine ⟨hd, ht, hne, hmon, by decide, ?_⟩
  intro h10
  have hmin : min level 10 = 10 := by omega
  exact ⟨by rw [hd, hmin], hten hmin⟩

/-- Witness of C15: level 37 is displayed as level 10 with the title
`Lendário`. -/
theorem title_display_witness :
    (1 : Int) ≤ 37 ∧ (10 : Int) < 37 ∧ displayLevel 37 = 10 ∧ title 37 = "Lendário" ∧
      levelTitlesAt (min 37 10 - 1) = some (title 37) :=
  ⟨by decide, by decide, ((title_display 37 (by decide)).2.2.2.2.2 (by decide)).1,
    ((title_display 37 (by decide)).2.2.2.2.2 (by decide)).2,
    (title_display 37 (by decide)).2.1⟩

end MarcoZero
